import Mathlib

/-!
Shallow embedding of `snomap.py`, a resumable SNOMED-CT → ICD-10 batch
mapping engine.  Python values handled by the program (parsed JSON
responses) are modelled by the inductive `Json`; Python operations that can
raise are modelled in `Except String`; the two CSV ledgers are modelled as
lists of rows of strings; the network, the filesystem artifact writes and
the wall clock are modelled as an environment supplied per source code.
-/

inductive Json where
  | null : Json
  | bool : Bool → Json
  | num : Int → Json
  | str : String → Json
  | arr : List Json → Json
  | obj : List (String × Json) → Json

/-- Python truthiness (`not x` in the source tests the negation of this). -/
def truthy : Json → Bool
  | .null => false
  | .bool b => b
  | .num n => !(n == 0)
  | .str s => !(s == "")
  | .arr xs => !xs.isEmpty
  | .obj fs => !fs.isEmpty

/-- First-match association lookup; Python dicts cannot hold duplicate keys,
so the represented objects are assumed key-unique and this is dict lookup. -/
def lookupField : List (String × Json) → String → Option Json
  | [], _ => none
  | (k, v) :: rest, key => if k == key then some v else lookupField rest key

/-- Python `==` against a string literal: only a `str` can equal a `str`. -/
def jsonEqStr (j : Json) (s : String) : Bool :=
  match j with
  | .str t => t == s
  | _ => false

/-- Substring test on character lists (Python `needle in haystackString`). -/
def charsContain (needle : List Char) : List Char → Bool
  | [] => needle.isEmpty
  | c :: rest => needle.isPrefixOf (c :: rest) || charsContain needle rest

/-- Python subscript `j[k]` with a string key: dict lookup or an exception. -/
def pyIndex (j : Json) (k : String) : Except String Json :=
  match j with
  | .obj fs =>
    match lookupField fs k with
    | some v => .ok v
    | none => .error "KeyError"
  | _ => .error "TypeError"

/-- Python `k in j`: key test on dicts, membership on lists, substring on
strings, an exception otherwise. -/
def pyContains (j : Json) (k : String) : Except String Bool :=
  match j with
  | .obj fs => .ok (lookupField fs k).isSome
  | .arr xs => .ok (xs.any fun x => match x with | .str s => s == k | _ => false)
  | .str s => .ok (charsContain k.data s.data)
  | _ => .error "TypeError"

/-- Python `j.get(k, d)`: only dicts have `.get`. -/
def pyGet (j : Json) (k : String) (d : Json) : Except String Json :=
  match j with
  | .obj fs => .ok ((lookupField fs k).getD d)
  | _ => .error "AttributeError"

/-- Python iteration `for x in j`: lists yield elements, dicts yield their
keys, strings yield one-character strings, anything else raises. -/
def pyIter (j : Json) : Except String (List Json) :=
  match j with
  | .arr xs => .ok xs
  | .obj fs => .ok (fs.map fun kv => .str kv.1)
  | .str s => .ok (s.data.map fun c => .str (String.mk [c]))
  | _ => .error "TypeError"

/-- `next((p for p in ps if p[\x27name\x27] == name), None)` from
`extract_icd10_from_response` (snomap.py lines 300 and 305). -/
def findByName : List Json → String → Except String (Option Json)
  | [], _ => .ok none
  | p :: rest, name =>
    match pyIndex p "name" with
    | .error e => .error e
    | .ok n => if jsonEqStr n name then .ok (some p) else findByName rest name

def icd10SystemUri : String := "http://hl7.org/fhir/sid/icd-10-am"

/-- The `for part in match_param[\x27part\x27]` loop of
`extract_icd10_from_response` (snomap.py lines 310-316). -/
def partLoop : List Json → Except String Json
  | [] => .ok (.str "")
  | part :: rest =>
    match pyGet part "name" .null with
    | .error e => .error e
    | .ok n =>
      if jsonEqStr n "concept" then
        match pyContains part "valueCoding" with
        | .error e => .error e
        | .ok false => partLoop rest
        | .ok true =>
          match pyIndex part "valueCoding" with
          | .error e => .error e
          | .ok vc =>
            match pyGet vc "system" .null with
            | .error e => .error e
            | .ok sys =>
              if jsonEqStr sys icd10SystemUri then pyGet vc "code" (.str "")
              else partLoop rest
      else partLoop rest

/-- The body of the `try` in `extract_icd10_from_response`
(snomap.py lines 295-316); a returned `.error` is a raised Python
exception reaching the enclosing handler. -/
def extractInner (response : Json) : Except String Json :=
  if truthy response = false then .ok (.str "") else
  match pyContains response "parameter" with
  | .error e => .error e
  | .ok false => .ok (.str "")
  | .ok true =>
    match pyIndex response "parameter" with
    | .error e => .error e
    | .ok pj =>
      match pyIter pj with
      | .error e => .error e
      | .ok ps =>
        match findByName ps "result" with
        | .error e => .error e
        | .ok none => .ok (.str "")
        | .ok (some rp) =>
          if truthy rp = false then .ok (.str "") else
          match pyGet rp "valueBoolean" (.bool false) with
          | .error e => .error e
          | .ok vb =>
            if truthy vb = false then .ok (.str "") else
            match findByName ps "match" with
            | .error e => .error e
            | .ok none => .ok (.str "")
            | .ok (some mp) =>
              if truthy mp = false then .ok (.str "") else
              match pyContains mp "part" with
              | .error e => .error e
              | .ok false => .ok (.str "")
              | .ok true =>
                match pyIndex mp "part" with
                | .error e => .error e
                | .ok pj2 =>
                  match pyIter pj2 with
                  | .error e => .error e
                  | .ok parts => partLoop parts

/-- `extract_icd10_from_response` (snomap.py lines 293-320): the outer
`except` converts any raised exception into `\x27\x27`. -/
def extract_icd10_from_response (response : Json) : Json :=
  match extractInner response with
  | .ok v => v
  | .error _ => .str ""

/-! ## Decimal rendering and parsing (Python `str(int)` and `int(str)`) -/

def digitChar : Nat → Char
  | 0 => '0' | 1 => '1' | 2 => '2' | 3 => '3' | 4 => '4'
  | 5 => '5' | 6 => '6' | 7 => '7' | 8 => '8' | _ => '9'

/-- Big-endian decimal digits of `n`, computed with structural fuel (the
fuel is always at least `n`, which suffices since `n / 10 < n`). -/
def toDigitCharsAux : Nat → Nat → List Char
  | _, 0 => []
  | 0, _ + 1 => []
  | fuel + 1, n + 1 =>
    toDigitCharsAux fuel ((n + 1) / 10) ++ [digitChar ((n + 1) % 10)]

/-- Decimal rendering of a natural number, the model of Python `str(i)`
for the nonnegative ids the engine writes. -/
def natToStr (n : Nat) : String :=
  if n = 0 then "0" else String.mk (toDigitCharsAux n n)

/-- Model of Python `int(s)` on strings of decimal digits. -/
def pyInt (s : String) : Nat :=
  s.data.foldl (fun a c => a * 10 + (c.toNat - 48)) 0

/-- Model of Python `s.isdigit()` (restricted to ASCII digits). -/
def isPyDigits (s : String) : Bool :=
  !s.data.isEmpty && s.data.all Char.isDigit

def intRepr (n : Int) : String :=
  if n < 0 then "-" ++ natToStr n.natAbs else natToStr n.toNat

mutual
/-- Python `repr` of a parsed-JSON value (used inside containers). -/
def pyRepr : Json → String
  | .null => "None"
  | .bool true => "True"
  | .bool false => "False"
  | .num n => intRepr n
  | .str s => "\x27" ++ s ++ "\x27"
  | .arr xs => "[" ++ String.intercalate ", " (pyReprArr xs) ++ "]"
  | .obj fs => "\x7b" ++ String.intercalate ", " (pyReprObj fs) ++ "\x7d"
def pyReprArr : List Json → List String
  | [] => []
  | x :: xs => pyRepr x :: pyReprArr xs
def pyReprObj : List (String × Json) → List String
  | [] => []
  | kv :: fs => ("\x27" ++ kv.1 ++ "\x27: " ++ pyRepr kv.2) :: pyReprObj fs
end

/-- Python `str(v)`: what `csv.writer` writes for a cell value. -/
def pyStrTop : Json → String
  | .str s => s
  | j => pyRepr j

/-! ## Ledger files -/

abbrev CsvRow := List String

def hdrOut : CsvRow := ["ID", "SNOMED", "ICD10", "TIMESTAMP"]

def hdrFail : CsvRow := ["ID", "SNOMED", "ERROR", "TIMESTAMP"]

/-- A ledger file on disk: `none` when the file does not exist, otherwise
the parsed CSV rows (header row included). -/
abbrev LedgerFile := Option (List CsvRow)

/-- The accumulating fold of `get_last_id` (snomap.py lines 184-188):
keeps the id of the *last* row whose first column is all digits. -/
def lastIdFold : List CsvRow → Nat → Nat
  | [], acc => acc
  | row :: rest, acc =>
    match row with
    | [] => lastIdFold rest acc
    | c :: _ => lastIdFold rest (if isPyDigits c then pyInt c else acc)

/-- `get_last_id` (snomap.py lines 177-191).  An absent file returns 0; an
empty file raises `StopIteration` at the header skip, caught to return 0;
otherwise the header is skipped and the rows folded. -/
def get_last_id (file : LedgerFile) : Nat :=
  match file with
  | none => 0
  | some [] => 0
  | some (_ :: rows) => lastIdFold rows 0

/-- All numeric identifiers in the first column of a ledger's data rows
(spec wording for claim C4). -/
def digitIds (file : LedgerFile) : List Nat :=
  match file with
  | some (_ :: rows) =>
    rows.filterMap fun r =>
      match r with
      | [] => none
      | c :: _ => if isPyDigits c then some (pyInt c) else none
  | _ => []

/-- One `csv.DictReader` field access `row[k]` (snomap.py line 172):
`none` models a `KeyError` (key absent from the header); `some none`
models the `None` restval for a short row. -/
def dictField (header row : List String) (k : String) : Option (Option String) :=
  match header.findIdx? (fun h => h == k) with
  | none => none
  | some i => some (row.get? i)

/-- The row loop of `load_existing_mappings` (snomap.py lines 171-172).
`DictReader` skips blank rows; a `KeyError` aborts the loop, returning the
mappings accumulated so far (the enclosing `except` logs and falls
through).  Keys and values are `Option String` because a short row yields
Python `None`.  Python dict insertion overwrites on duplicate keys; the
association list preserves key membership, which is all the engine uses. -/
def buildMappings (header : List String) :
    List CsvRow → List (Option String × Option String) →
    List (Option String × Option String)
  | [], acc => acc
  | [] :: rest, acc => buildMappings header rest acc
  | row :: rest, acc =>
    match dictField header row "SNOMED", dictField header row "ICD10" with
    | some s, some v => buildMappings header rest (acc ++ [(s, v)])
    | _, _ => acc

/-- `load_existing_mappings` (snomap.py lines 164-175). -/
def load_existing_mappings (file : LedgerFile) :
    List (Option String × Option String) :=
  match file with
  | none => []
  | some [] => []
  | some (header :: rows) => buildMappings header rows []

/-- `snomed_code in existing_mappings` (snomap.py line 237). -/
def keyMem (m : List (Option String × Option String)) (c : String) : Bool :=
  m.any fun kv => kv.1 == some c

/-! ## The client and the per-code environment -/

/-- Behaviour of the network for one translate POST: a 2xx response with a
parsed JSON body, or a raised `requests` error (transport failure or the
`raise_for_status` of a non-2xx response — `make_fhir_request` treats both
identically). -/
inductive HttpResult where
  | success : Json → HttpResult
  | failure : String → HttpResult

/-- External behaviour relevant to processing one source code:
`tokenResult` is what `get_access_token` would store if invoked
(`none` for a failed exchange or a response without an `access_token`),
`http` is the network behaviour of the translate request, `artifactError`
is `some msg` when writing the per-code JSON artifact raises, and `ts` is
the `datetime.now()` timestamp formatted for the row written. -/
structure CodeEnv where
  tokenResult : Option String
  http : HttpResult
  artifactError : Option String
  ts : String

/-- Python truthiness of `self.access_token`. -/
def tokenTruthy : Option String → Bool
  | none => false
  | some t => !(t == "")

def doPost : HttpResult → Option Json
  | .success j => some j
  | .failure _ => none

/-- `make_fhir_request` on the `ConceptMap/$translate` path (snomap.py
lines 52-117), as a function of the held token and the environment.
Returns the new held token, whether an HTTP request was issued, and the
returned value (`none` both when the token was unavailable and when the
request raised a `RequestException`, which the method catches). -/
def make_fhir_request (accessToken : Option String) (e : CodeEnv) :
    Option String × Bool × Option Json :=
  let tok := if tokenTruthy accessToken then accessToken else e.tokenResult
  if tokenTruthy tok then (tok, true, doPost e.http)
  else (tok, false, none)

/-- The parsed response the engine hands to the extractor: `Json.null`
models Python `None`. -/
def respOf (e : CodeEnv) : Json :=
  match e.http with
  | .success j => j
  | .failure _ => .null

/-- Whether processing a code with environment `e` takes the success
branch, assuming the translate request was issued: the artifact write did
not raise and the extracted value is truthy. -/
def isSuccessEnv (e : CodeEnv) : Bool :=
  e.artifactError.isNone && truthy (extract_icd10_from_response (respOf e))

/-- The ERROR field of the failure row written for a code with
environment `e` (assuming the request was issued): the per-code `except`
branch writes `"ERROR: " ++ msg`, the no-mapping branch writes the
literal. -/
def failMsgOf (e : CodeEnv) : String :=
  match e.artifactError with
  | some m => "ERROR: " ++ m
  | none => "No mapping found"

/-- The ICD10 field of the success row written for a code with
environment `e`. -/
def succValOf (e : CodeEnv) : String :=
  pyStrTop (extract_icd10_from_response (respOf e))

/-! ## The batch engine -/

/-- In-flight state of `process_batch_codes`: the client's held token, the
pre-loaded mappings index, the run mode, the two open ledger files, the
two id counters, the four summary counters, and the list of codes for
which a translate HTTP request was issued. -/
structure EngineState where
  accessToken : Option String
  existing : List (Option String × Option String)
  full_refresh : Bool
  outRows : List CsvRow
  failRows : List CsvRow
  currentId : Nat
  failedId : Nat
  total : Nat
  skipped : Nat
  processed : Nat
  errors : Nat
  calls : List String

/-- Model of Python `line.strip()`. -/
def pyStrip (s : String) : String :=
  String.mk (((s.data.dropWhile Char.isWhitespace).reverse.dropWhile
    Char.isWhitespace).reverse)

/-- The body of the `for snomed_code in infile` loop of
`process_batch_codes` (snomap.py lines 229-284). -/
def processCode (env : String → CodeEnv) (st : EngineState) (line : String) :
    EngineState :=
  let snomed_code := pyStrip line
  if snomed_code == "" then st
  else
    let st1 := { st with total := st.total + 1 }
    if !st1.full_refresh && keyMem st1.existing snomed_code then
      { st1 with skipped := st1.skipped + 1 }
    else
      let e := env snomed_code
      let r := make_fhir_request st1.accessToken e
      let st2 := { st1 with
        accessToken := r.1,
        calls := if r.2.1 then st1.calls ++ [snomed_code] else st1.calls }
      match e.artifactError with
      | some msg =>
        { st2 with
          errors := st2.errors + 1,
          failRows := st2.failRows ++
            [[natToStr st2.failedId, snomed_code, "ERROR: " ++ msg, e.ts]],
          failedId := st2.failedId + 1 }
      | none =>
        let icd10_code := extract_icd10_from_response (r.2.2.getD .null)
        if truthy icd10_code then
          { st2 with
            outRows := st2.outRows ++
              [[natToStr st2.currentId, snomed_code, pyStrTop icd10_code, e.ts]],
            currentId := st2.currentId + 1,
            processed := st2.processed + 1 }
        else
          { st2 with
            errors := st2.errors + 1,
            failRows := st2.failRows ++
              [[natToStr st2.failedId, snomed_code, "No mapping found", e.ts]],
            failedId := st2.failedId + 1 }

def engineLoop (env : String → CodeEnv) (lines : List String)
    (st : EngineState) : EngineState :=
  lines.foldl (processCode env) st

/-- The two ledger files on disk. -/
structure LedgerFS where
  output : LedgerFile
  failed : LedgerFile

/-- Contents of a ledger after `open(file, mode)` plus the conditional
header write (snomap.py lines 212-226): `w` truncates and writes the
header; `a` keeps the rows, writing the header only if the file did not
exist. -/
def initLedger (full_refresh : Bool) (file : LedgerFile) (hdr : CsvRow) :
    List CsvRow :=
  if full_refresh then [hdr]
  else
    match file with
    | none => [hdr]
    | some rows => rows

/-- Observable outcome of one `process_batch_codes` run: the ledger files
left on disk, whether the run aborted on a failed input-file open (the
only uncaught exception path; the `with` block has already truncated /
opened the ledgers), the four summary counters, and the issued translate
calls. -/
structure RunResult where
  fs : LedgerFS
  aborted : Bool
  total : Nat
  skipped : Nat
  processed : Nat
  errors : Nat
  calls : List String

/-- `process_batch_codes` (snomap.py lines 193-291).  `input` is `none`
when opening the input file raises.  The client is constructed fresh, so
it holds no token. -/
def process_batch_codes (env : String → CodeEnv) (fs : LedgerFS)
    (input : Option (List String)) (full_refresh : Bool) : RunResult :=
  let existing := if full_refresh then [] else load_existing_mappings fs.output
  let currentId := if full_refresh then 1 else get_last_id fs.output + 1
  let failedId := if full_refresh then 1 else get_last_id fs.failed + 1
  let out0 := initLedger full_refresh fs.output hdrOut
  let fail0 := initLedger full_refresh fs.failed hdrFail
  match input with
  | none =>
    { fs := ⟨some out0, some fail0⟩, aborted := true,
      total := 0, skipped := 0, processed := 0, errors := 0, calls := [] }
  | some lines =>
    let st := engineLoop env lines
      { accessToken := none, existing := existing,
        full_refresh := full_refresh,
        outRows := out0, failRows := fail0,
        currentId := currentId, failedId := failedId,
        total := 0, skipped := 0, processed := 0, errors := 0, calls := [] }
    { fs := ⟨some st.outRows, some st.failRows⟩, aborted := false,
      total := st.total, skipped := st.skipped, processed := st.processed,
      errors := st.errors, calls := st.calls }

/-! ## Derived vocabulary used by the claims -/

/-- A ledger entry yet to be given an id: source code, value column
(ICD10 or ERROR), timestamp. -/
abbrev LedgerEntry := String × String × String

/-- Rows for consecutive ids starting at `s`. -/
def rowsFrom (s : Nat) : List LedgerEntry → List CsvRow
  | [] => []
  | (c, v, t) :: rest => [natToStr s, c, v, t] :: rowsFrom (s + 1) rest

/-- The codes of a run's input that reach the remote-call branch: trimmed,
non-blank, and not skipped. -/
def processedCodes (b : Bool) (E : List (Option String × Option String))
    (lines : List String) : List String :=
  lines.filterMap fun l =>
    let c := pyStrip l
    if c == "" then none
    else if !b && keyMem E c then none
    else some c

def succEntries (env : String → CodeEnv) (cs : List String) :
    List LedgerEntry :=
  (cs.filter fun c => isSuccessEnv (env c)).map fun c =>
    (c, succValOf (env c), (env c).ts)

def failEntries (env : String → CodeEnv) (cs : List String) :
    List LedgerEntry :=
  (cs.filter fun c => !isSuccessEnv (env c)).map fun c =>
    (c, failMsgOf (env c), (env c).ts)

/-- One engine invocation in a multi-run history (always resume mode, the
mode in which no ledger row is ever deleted). -/
structure RunSpec where
  env : String → CodeEnv
  input : Option (List String)

def runSeq : LedgerFS → List RunSpec → LedgerFS
  | fs, [] => fs
  | fs, s :: rest => runSeq (process_batch_codes s.env fs s.input false).fs rest

def fsAbsent : LedgerFS := ⟨none, none⟩

/-- The first column of a ledger file's data rows. -/
def idColumn : LedgerFile → List String
  | some (_ :: rows) => rows.map fun r => r.headD ""
  | _ => []

/-! ## Vocabulary for the extractor's order-(in)dependence (claim C8) -/

/-- Whether a parameter entry would match `p[\x27name\x27] == name`
without raising. -/
def isNameB (p : Json) (name : String) : Bool :=
  match p with
  | .obj g =>
    match lookupField g "name" with
    | some v => jsonEqStr v name
    | none => false
  | _ => false

/-- Whether `p[\x27name\x27]` evaluates without raising. -/
def hasNameField (p : Json) : Bool :=
  match p with
  | .obj g => (lookupField g "name").isSome
  | _ => false

/-- Well-formedness of a response's parameter collection under which the
first-match searches of the extractor are order-independent: every entry
is an object carrying a name, and at most one entry is named "result" and
at most one "match". -/
def paramsWF (ps : List Json) : Prop :=
  (∀ p ∈ ps, hasNameField p = true) ∧
  ps.countP (fun p => isNameB p "result") ≤ 1 ∧
  ps.countP (fun p => isNameB p "match") ≤ 1

/-- Whether a sub-part of the match parameter satisfies the full search
condition of the part loop. -/
def qualifiesB (q : Json) : Bool :=
  match q with
  | .obj g =>
    (match lookupField g "name" with
     | some v => jsonEqStr v "concept"
     | none => false) &&
    (match lookupField g "valueCoding" with
     | some (.obj vg) =>
       match lookupField vg "system" with
       | some sv => jsonEqStr sv icd10SystemUri
       | none => false
     | _ => false)
  | _ => false

/-- Whether evaluating the part loop's condition on `q` raises: a
non-object part raises at `.get`, and a concept part whose valueCoding is
present but not an object raises at `.get(\x27system\x27)`. -/
def partHazard (q : Json) : Bool :=
  match q with
  | .obj g =>
    (match lookupField g "name" with
     | some v => jsonEqStr v "concept"
     | none => false) &&
    (match lookupField g "valueCoding" with
     | some (.obj _) => false
     | some _ => true
     | none => false)
  | _ => true

/-- The value the part loop returns for a qualifying part. -/
def codeOfPart (q : Json) : Json :=
  match q with
  | .obj g =>
    match lookupField g "valueCoding" with
    | some (.obj vg) => (lookupField vg "code").getD (.str "")
    | _ => .str ""
  | _ => .str ""

/-- Well-formedness of the match parameter's sub-parts: no condition
raises, and at most one part qualifies. -/
def partsWF (qs : List Json) : Prop :=
  (∀ q ∈ qs, partHazard q = false) ∧ qs.countP qualifiesB ≤ 1

/-- Two parameter entries that the extractor cannot distinguish: equal, or
both the match parameter with sub-part lists that are permutations of one
another (and well-formed). -/
def MatchRel (a b : Json) : Prop :=
  a = b ∨
  ∃ ga gb qs qs',
    a = .obj ga ∧ b = .obj gb ∧
    lookupField ga "name" = some (.str "match") ∧
    lookupField gb "name" = some (.str "match") ∧
    lookupField ga "part" = some (.arr qs) ∧
    lookupField gb "part" = some (.arr qs') ∧
    qs.Perm qs' ∧ partsWF qs

/-- `ps'` is `ps` with the match parameter's sub-parts permuted and the
parameter entries themselves permuted. -/
def ParamsRel (ps ps' : List Json) : Prop :=
  ∃ ps₂, List.Forall₂ MatchRel ps ps₂ ∧ ps₂.Perm ps'

/-- A response whose parameter collection is `ps`. -/
def mkResp (ps : List Json) : Json :=
  .obj [("parameter", .arr ps)]

/-- The tail of `extractInner` from the point where the match parameter
has been located (the `if not match_param or ...` sequence onwards). -/
def matchEval (mp : Json) : Except String Json :=
  if truthy mp = false then .ok (.str "") else
  match pyContains mp "part" with
  | .error e => .error e
  | .ok false => .ok (.str "")
  | .ok true =>
    match pyIndex mp "part" with
    | .error e => .error e
    | .ok pj2 =>
      match pyIter pj2 with
      | .error e => .error e
      | .ok parts => partLoop parts

/-- The engine state at the top of the per-code loop of
`process_batch_codes` (snomap.py lines 194-226). -/
def initState (fs : LedgerFS) (full_refresh : Bool) : EngineState :=
  { accessToken := none,
    existing := if full_refresh then [] else load_existing_mappings fs.output,
    full_refresh := full_refresh,
    outRows := initLedger full_refresh fs.output hdrOut,
    failRows := initLedger full_refresh fs.failed hdrFail,
    currentId := if full_refresh then 1 else get_last_id fs.output + 1,
    failedId := if full_refresh then 1 else get_last_id fs.failed + 1,
    total := 0, skipped := 0, processed := 0, errors := 0, calls := [] }

/-! ## Lemmas: decimal rendering round-trips -/

theorem digitChar_toNat (m : Nat) (h : m < 10) : (digitChar m).toNat = 48 + m := by
  interval_cases m <;> decide

theorem digitChar_isDigit (m : Nat) (h : m < 10) : (digitChar m).isDigit = true := by
  interval_cases m <;> decide

theorem toDigitCharsAux_foldl (fuel : Nat) :
    ∀ n, n ≤ fuel →
      (toDigitCharsAux fuel n).foldl (fun a c => a * 10 + (c.toNat - 48)) 0 = n := by
  induction fuel with
  | zero =>
    intro n hn
    interval_cases n
    rfl
  | succ fuel ih =>
    intro n hn
    match n with
    | 0 => rfl
    | m + 1 =>
      have hq : (m + 1) / 10 ≤ fuel := by
        have := Nat.div_lt_self (Nat.succ_pos m) (by decide : 1 < 10)
        omega
      have hr : (m + 1) % 10 < 10 := Nat.mod_lt _ (by decide)
      have hdm := Nat.div_add_mod (m + 1) 10
      simp only [toDigitCharsAux, List.foldl_append, List.foldl_cons, List.foldl_nil,
        ih _ hq, digitChar_toNat _ hr]
      omega

theorem toDigitCharsAux_digits (fuel : Nat) :
    ∀ n, n ≤ fuel → (toDigitCharsAux fuel n).all Char.isDigit = true := by
  induction fuel with
  | zero =>
    intro n hn
    interval_cases n
    rfl
  | succ fuel ih =>
    intro n hn
    match n with
    | 0 => rfl
    | m + 1 =>
      have hq : (m + 1) / 10 ≤ fuel := by
        have := Nat.div_lt_self (Nat.succ_pos m) (by decide : 1 < 10)
        omega
      have hr : (m + 1) % 10 < 10 := Nat.mod_lt _ (by decide)
      simp only [toDigitCharsAux, List.all_append, ih _ hq, List.all_cons, List.all_nil,
        digitChar_isDigit _ hr]
      rfl

theorem toDigitCharsAux_ne_nil (fuel n : Nat) (h0 : 0 < n) (hn : n ≤ fuel) :
    toDigitCharsAux fuel n ≠ [] := by
  match fuel, n with
  | 0, n => omega
  | fuel + 1, m + 1 => simp [toDigitCharsAux]

theorem pyInt_natToStr (n : Nat) : pyInt (natToStr n) = n := by
  by_cases h : n = 0
  · subst h; decide
  · have : natToStr n = String.mk (toDigitCharsAux n n) := by simp [natToStr, h]
    rw [this]
    exact toDigitCharsAux_foldl n n (Nat.le_refl n)

theorem isPyDigits_natToStr (n : Nat) : isPyDigits (natToStr n) = true := by
  by_cases h : n = 0
  · subst h; decide
  · have hs : natToStr n = String.mk (toDigitCharsAux n n) := by simp [natToStr, h]
    rw [hs]
    have hne := toDigitCharsAux_ne_nil n n (Nat.pos_of_ne_zero h) (Nat.le_refl n)
    have hd := toDigitCharsAux_digits n n (Nat.le_refl n)
    simp [isPyDigits, hd]
    simpa [List.isEmpty_iff] using hne

theorem natToStr_ne_empty (n : Nat) : natToStr n ≠ "" := by
  by_cases h : n = 0
  · subst h; decide
  · have hs : natToStr n = String.mk (toDigitCharsAux n n) := by simp [natToStr, h]
    rw [hs]
    have hne := toDigitCharsAux_ne_nil n n (Nat.pos_of_ne_zero h) (Nat.le_refl n)
    intro hcontra
    exact hne (by simpa using congrArg String.data hcontra)

/-! ## Lemmas: `rowsFrom` and the ledger readers -/

theorem rowsFrom_append (s : Nat) (es es' : List LedgerEntry) :
    rowsFrom s (es ++ es') = rowsFrom s es ++ rowsFrom (s + es.length) es' := by
  induction es generalizing s with
  | nil => simp [rowsFrom]
  | cons e es ih =>
    obtain ⟨c, v, t⟩ := e
    simp [rowsFrom, ih (s + 1), Nat.add_assoc, Nat.add_comm 1 es.length]

theorem lastIdFold_rowsFrom (es : List LedgerEntry) :
    ∀ s a, lastIdFold (rowsFrom s es) a =
      if es.isEmpty then a else s + es.length - 1 := by
  induction es with
  | nil => intro s a; rfl
  | cons e es ih =>
    intro s a
    obtain ⟨c, v, t⟩ := e
    simp only [rowsFrom, lastIdFold, isPyDigits_natToStr, if_true, pyInt_natToStr,
      ih (s + 1) s]
    cases es with
    | nil => simp
    | cons f fs => simp [List.isEmpty]; omega

theorem get_last_id_rowsFrom (hdr : CsvRow) (es : List LedgerEntry) :
    get_last_id (some (hdr :: rowsFrom 1 es)) = es.length := by
  simp only [get_last_id, lastIdFold_rowsFrom es 1 0]
  cases es with
  | nil => rfl
  | cons e es => simp [List.isEmpty]

theorem rowsFrom_idColumn (s : Nat) (es : List LedgerEntry) :
    (rowsFrom s es).map (fun r => r.headD "") =
      (List.range' s es.length 1).map natToStr := by
  induction es generalizing s with
  | nil => rfl
  | cons e es ih =>
    obtain ⟨c, v, t⟩ := e
    show natToStr s :: (rowsFrom (s + 1) es).map (fun r => r.headD "") =
      (List.range' s (es.length + 1) 1).map natToStr
    rw [List.range'_succ, List.map_cons, ih (s + 1)]

theorem rowsFrom_mem_snomed (s : Nat) (es : List LedgerEntry) (row : CsvRow)
    (h : row ∈ rowsFrom s es) :
    ∃ e ∈ es, (row.drop 1).headD "" = e.1 ∧ (row.drop 2).headD "" = e.2.1 := by
  induction es generalizing s with
  | nil => simp [rowsFrom] at h
  | cons e es ih =>
    obtain ⟨c, v, t⟩ := e
    simp only [rowsFrom, List.mem_cons] at h
    rcases h with h | h
    · exact ⟨(c, v, t), by simp, by subst h; simp⟩
    · obtain ⟨e', he', hrow⟩ := ih (s + 1) h
      exact ⟨e', by simp [he'], hrow⟩

/-! ## Lemmas: non-emptiness of written success values -/

theorem string_append_ne_empty (a b : String) (h : a.data ≠ []) : a ++ b ≠ "" := by
  intro hc
  have := congrArg String.data hc
  rw [String.data_append] at this
  simp at this
  exact h this.1

theorem pyStrTop_ne_empty (j : Json) (h : truthy j = true) : pyStrTop j ≠ "" := by
  cases j with
  | null => simp [truthy] at h
  | bool b =>
    cases b with
    | false => simp [truthy] at h
    | true => simp [pyStrTop, pyRepr]
  | num n =>
    show intRepr n ≠ ""
    unfold intRepr
    split
    · exact string_append_ne_empty "-" _ (by decide)
    · exact natToStr_ne_empty n.toNat
  | str s =>
    have : s ≠ "" := by simpa [truthy] using h
    simpa [pyStrTop]
  | arr xs => exact string_append_ne_empty "[" _ (by decide)
  | obj fs => exact string_append_ne_empty "\x7b" _ (by decide)

/-! ## Lemmas: the four branches of the per-code loop body -/

theorem processCode_blank (env : String → CodeEnv) (st : EngineState)
    (l : String) (h : (pyStrip l == "") = true) :
    processCode env st l = st := by
  simp [processCode, h]

theorem processCode_skip (env : String → CodeEnv) (st : EngineState)
    (l : String) (h1 : (pyStrip l == "") = false)
    (h2 : (!st.full_refresh && keyMem st.existing (pyStrip l)) = true) :
    processCode env st l =
      { st with total := st.total + 1, skipped := st.skipped + 1 } := by
  simp [processCode, h1, h2]

theorem processCode_artifact (env : String → CodeEnv) (st : EngineState)
    (l msg : String) (h1 : (pyStrip l == "") = false)
    (h2 : (!st.full_refresh && keyMem st.existing (pyStrip l)) = false)
    (h3 : (env (pyStrip l)).artifactError = some msg) :
    processCode env st l = { st with
      accessToken := (make_fhir_request st.accessToken (env (pyStrip l))).1,
      calls := if (make_fhir_request st.accessToken (env (pyStrip l))).2.1
               then st.calls ++ [pyStrip l] else st.calls,
      total := st.total + 1,
      errors := st.errors + 1,
      failRows := st.failRows ++
        [[natToStr st.failedId, pyStrip l, "ERROR: " ++ msg, (env (pyStrip l)).ts]],
      failedId := st.failedId + 1 } := by
  simp [processCode, h1, h2, h3]

theorem processCode_success (env : String → CodeEnv) (st : EngineState)
    (l : String) (h1 : (pyStrip l == "") = false)
    (h2 : (!st.full_refresh && keyMem st.existing (pyStrip l)) = false)
    (h3 : (env (pyStrip l)).artifactError = none)
    (h4 : truthy (extract_icd10_from_response
      (((make_fhir_request st.accessToken (env (pyStrip l))).2.2).getD .null)) = true) :
    processCode env st l = { st with
      accessToken := (make_fhir_request st.accessToken (env (pyStrip l))).1,
      calls := if (make_fhir_request st.accessToken (env (pyStrip l))).2.1
               then st.calls ++ [pyStrip l] else st.calls,
      total := st.total + 1,
      outRows := st.outRows ++
        [[natToStr st.currentId, pyStrip l,
          pyStrTop (extract_icd10_from_response
            (((make_fhir_request st.accessToken (env (pyStrip l))).2.2).getD .null)),
          (env (pyStrip l)).ts]],
      currentId := st.currentId + 1,
      processed := st.processed + 1 } := by
  simp [processCode, h1, h2, h3, h4]

theorem processCode_nomatch (env : String → CodeEnv) (st : EngineState)
    (l : String) (h1 : (pyStrip l == "") = false)
    (h2 : (!st.full_refresh && keyMem st.existing (pyStrip l)) = false)
    (h3 : (env (pyStrip l)).artifactError = none)
    (h4 : truthy (extract_icd10_from_response
      (((make_fhir_request st.accessToken (env (pyStrip l))).2.2).getD .null)) = false) :
    processCode env st l = { st with
      accessToken := (make_fhir_request st.accessToken (env (pyStrip l))).1,
      calls := if (make_fhir_request st.accessToken (env (pyStrip l))).2.1
               then st.calls ++ [pyStrip l] else st.calls,
      total := st.total + 1,
      errors := st.errors + 1,
      failRows := st.failRows ++
        [[natToStr st.failedId, pyStrip l, "No mapping found", (env (pyStrip l)).ts]],
      failedId := st.failedId + 1 } := by
  simp [processCode, h1, h2, h3, h4]

/-! ## Lemmas: `processedCodes` over a cons -/

theorem processedCodes_cons_blank (b : Bool)
    (E : List (Option String × Option String)) (l : String)
    (lines : List String) (h : (pyStrip l == "") = true) :
    processedCodes b E (l :: lines) = processedCodes b E lines := by
  have h' : pyStrip l = "" := by simpa using h
  simp [processedCodes, List.filterMap_cons, h']

theorem processedCodes_cons_skip (b : Bool)
    (E : List (Option String × Option String)) (l : String)
    (lines : List String) (h1 : (pyStrip l == "") = false)
    (h2 : (!b && keyMem E (pyStrip l)) = true) :
    processedCodes b E (l :: lines) = processedCodes b E lines := by
  have h1' : ¬pyStrip l = "" := by simpa using h1
  have h2' : b = false ∧ keyMem E (pyStrip l) = true := by simpa using h2
  simp [processedCodes, List.filterMap_cons, h1', h2'.1, h2'.2]

theorem processedCodes_cons_proc (b : Bool)
    (E : List (Option String × Option String)) (l : String)
    (lines : List String) (h1 : (pyStrip l == "") = false)
    (h2 : (!b && keyMem E (pyStrip l)) = false) :
    processedCodes b E (l :: lines) = pyStrip l :: processedCodes b E lines := by
  have h1' : ¬pyStrip l = "" := by simpa using h1
  have h2' : ¬(b = false ∧ keyMem E (pyStrip l) = true) := by
    intro hc
    rw [hc.1, hc.2] at h2
    simp at h2
  simp [processedCodes, List.filterMap_cons, h1', h2']

/-! ## The generic shape of an engine loop: rows are appended with
consecutive ids, appended rows concern only processed codes, and every
failure row's ERROR field is determined by the code's environment. -/

theorem engineLoop_shape (env : String → CodeEnv) (lines : List String) :
    ∀ st : EngineState, ∃ esO esF : List LedgerEntry, ∃ csN : List String,
      (engineLoop env lines st).outRows =
        st.outRows ++ rowsFrom st.currentId esO ∧
      (engineLoop env lines st).currentId = st.currentId + esO.length ∧
      (engineLoop env lines st).failRows =
        st.failRows ++ rowsFrom st.failedId esF ∧
      (engineLoop env lines st).failedId = st.failedId + esF.length ∧
      (engineLoop env lines st).calls = st.calls ++ csN ∧
      (engineLoop env lines st).existing = st.existing ∧
      (engineLoop env lines st).full_refresh = st.full_refresh ∧
      (∀ e ∈ esO,
        e.1 ∈ processedCodes st.full_refresh st.existing lines ∧ e.2.1 ≠ "") ∧
      (∀ e ∈ esF,
        e.1 ∈ processedCodes st.full_refresh st.existing lines ∧
        e.2.1 = failMsgOf (env e.1)) ∧
      (∀ x ∈ csN, x ∈ processedCodes st.full_refresh st.existing lines) := by
  induction lines with
  | nil =>
    intro st
    refine ⟨[], [], [], ?_, ?_, ?_, ?_, ?_, ?_, ?_, ?_, ?_, ?_⟩ <;>
      simp [engineLoop, rowsFrom]
  | cons l lines ih =>
    intro st
    have hstep : engineLoop env (l :: lines) st =
        engineLoop env lines (processCode env st l) := rfl
    by_cases hb : (pyStrip l == "") = true
    · rw [hstep, processCode_blank env st l hb,
        processedCodes_cons_blank st.full_refresh st.existing l lines hb]
      exact ih st
    · have hb' := eq_false_of_ne_true hb
      by_cases hs : (!st.full_refresh && keyMem st.existing (pyStrip l)) = true
      · rw [hstep, processCode_skip env st l hb' hs,
          processedCodes_cons_skip st.full_refresh st.existing l lines hb' hs]
        exact ih { st with total := st.total + 1, skipped := st.skipped + 1 }
      · have hs' := eq_false_of_ne_true hs
        rw [hstep, processedCodes_cons_proc st.full_refresh st.existing l lines hb' hs']
        cases ha : (env (pyStrip l)).artifactError with
        | some msg =>
          rw [processCode_artifact env st l msg hb' hs' ha]
          obtain ⟨esO, esF, csN, h1, h2, h3, h4, h5, h6, h7, h8, h9, h10⟩ :=
            ih { st with
              accessToken := (make_fhir_request st.accessToken (env (pyStrip l))).1,
              calls := if (make_fhir_request st.accessToken (env (pyStrip l))).2.1
                       then st.calls ++ [pyStrip l] else st.calls,
              total := st.total + 1,
              errors := st.errors + 1,
              failRows := st.failRows ++
                [[natToStr st.failedId, pyStrip l, "ERROR: " ++ msg,
                  (env (pyStrip l)).ts]],
              failedId := st.failedId + 1 }
          refine ⟨esO,
            (pyStrip l, "ERROR: " ++ msg, (env (pyStrip l)).ts) :: esF,
            (if (make_fhir_request st.accessToken (env (pyStrip l))).2.1
             then pyStrip l :: csN else csN),
            h1, h2, ?_, ?_, ?_, h6, h7, ?_, ?_, ?_⟩
          · rw [h3]; simp [rowsFrom, List.append_assoc]
          · rw [h4]; simp; omega
          · rw [h5]
            by_cases hi : (make_fhir_request st.accessToken (env (pyStrip l))).2.1 = true
            · simp [hi]
            · simp [eq_false_of_ne_true hi]
          · intro e he
            exact ⟨List.mem_cons_of_mem _ (h8 e he).1, (h8 e he).2⟩
          · intro e he
            rcases List.mem_cons.mp he with he | he
            · subst he
              exact ⟨List.mem_cons_self _ _, by simp [failMsgOf, ha]⟩
            · exact ⟨List.mem_cons_of_mem _ (h9 e he).1, (h9 e he).2⟩
          · intro x hx
            by_cases hi : (make_fhir_request st.accessToken (env (pyStrip l))).2.1 = true
            · rw [if_pos hi] at hx
              rcases List.mem_cons.mp hx with hx | hx
              · subst hx; exact List.mem_cons_self _ _
              · exact List.mem_cons_of_mem _ (h10 x hx)
            · rw [if_neg hi] at hx
              exact List.mem_cons_of_mem _ (h10 x hx)
        | none =>
          by_cases ht : truthy (extract_icd10_from_response
              (((make_fhir_request st.accessToken (env (pyStrip l))).2.2).getD
                .null)) = true
          · rw [processCode_success env st l hb' hs' ha ht]
            obtain ⟨esO, esF, csN, h1, h2, h3, h4, h5, h6, h7, h8, h9, h10⟩ :=
              ih { st with
                accessToken := (make_fhir_request st.accessToken (env (pyStrip l))).1,
                calls := if (make_fhir_request st.accessToken (env (pyStrip l))).2.1
                         then st.calls ++ [pyStrip l] else st.calls,
                total := st.total + 1,
                outRows := st.outRows ++
                  [[natToStr st.currentId, pyStrip l,
                    pyStrTop (extract_icd10_from_response
                      (((make_fhir_request st.accessToken (env (pyStrip l))).2.2).getD
                        .null)),
                    (env (pyStrip l)).ts]],
                currentId := st.currentId + 1,
                processed := st.processed + 1 }
            refine ⟨(pyStrip l,
                pyStrTop (extract_icd10_from_response
                  (((make_fhir_request st.accessToken (env (pyStrip l))).2.2).getD
                    .null)),
                (env (pyStrip l)).ts) :: esO,
              esF,
              (if (make_fhir_request st.accessToken (env (pyStrip l))).2.1
               then pyStrip l :: csN else csN),
              ?_, ?_, h3, h4, ?_, h6, h7, ?_, ?_, ?_⟩
            · rw [h1]; simp [rowsFrom, List.append_assoc]
            · rw [h2]; simp; omega
            · rw [h5]
              by_cases hi : (make_fhir_request st.accessToken (env (pyStrip l))).2.1 = true
              · simp [hi]
              · simp [eq_false_of_ne_true hi]
            · intro e he
              rcases List.mem_cons.mp he with he | he
              · subst he
                exact ⟨List.mem_cons_self _ _, pyStrTop_ne_empty _ ht⟩
              · exact ⟨List.mem_cons_of_mem _ (h8 e he).1, (h8 e he).2⟩
            · intro e he
              exact ⟨List.mem_cons_of_mem _ (h9 e he).1, (h9 e he).2⟩
            · intro x hx
              by_cases hi : (make_fhir_request st.accessToken (env (pyStrip l))).2.1 = true
              · rw [if_pos hi] at hx
                rcases List.mem_cons.mp hx with hx | hx
                · subst hx; exact List.mem_cons_self _ _
                · exact List.mem_cons_of_mem _ (h10 x hx)
              · rw [if_neg hi] at hx
                exact List.mem_cons_of_mem _ (h10 x hx)
          · have ht' := eq_false_of_ne_true ht
            rw [processCode_nomatch env st l hb' hs' ha ht']
            obtain ⟨esO, esF, csN, h1, h2, h3, h4, h5, h6, h7, h8, h9, h10⟩ :=
              ih { st with
                accessToken := (make_fhir_request st.accessToken (env (pyStrip l))).1,
                calls := if (make_fhir_request st.accessToken (env (pyStrip l))).2.1
                         then st.calls ++ [pyStrip l] else st.calls,
                total := st.total + 1,
                errors := st.errors + 1,
                failRows := st.failRows ++
                  [[natToStr st.failedId, pyStrip l, "No mapping found",
                    (env (pyStrip l)).ts]],
                failedId := st.failedId + 1 }
            refine ⟨esO,
              (pyStrip l, "No mapping found", (env (pyStrip l)).ts) :: esF,
              (if (make_fhir_request st.accessToken (env (pyStrip l))).2.1
               then pyStrip l :: csN else csN),
              h1, h2, ?_, ?_, ?_, h6, h7, ?_, ?_, ?_⟩
            · rw [h3]; simp [rowsFrom, List.append_assoc]
            · rw [h4]; simp; omega
            · rw [h5]
              by_cases hi : (make_fhir_request st.accessToken (env (pyStrip l))).2.1 = true
              · simp [hi]
              · simp [eq_false_of_ne_true hi]
            · intro e he
              exact ⟨List.mem_cons_of_mem _ (h8 e he).1, (h8 e he).2⟩
            · intro e he
              rcases List.mem_cons.mp he with he | he
              · subst he
                exact ⟨List.mem_cons_self _ _, by simp [failMsgOf, ha]⟩
              · exact ⟨List.mem_cons_of_mem _ (h9 e he).1, (h9 e he).2⟩
            · intro x hx
              by_cases hi : (make_fhir_request st.accessToken (env (pyStrip l))).2.1 = true
              · rw [if_pos hi] at hx
                rcases List.mem_cons.mp hx with hx | hx
                · subst hx; exact List.mem_cons_self _ _
                · exact List.mem_cons_of_mem _ (h10 x hx)
              · rw [if_neg hi] at hx
                exact List.mem_cons_of_mem _ (h10 x hx)

/-! ## Run-level corollaries -/

theorem process_batch_codes_eq (env : String → CodeEnv) (fs : LedgerFS)
    (lines : List String) (b : Bool) :
    process_batch_codes env fs (some lines) b =
      { fs := ⟨some (engineLoop env lines (initState fs b)).outRows,
               some (engineLoop env lines (initState fs b)).failRows⟩,
        aborted := false,
        total := (engineLoop env lines (initState fs b)).total,
        skipped := (engineLoop env lines (initState fs b)).skipped,
        processed := (engineLoop env lines (initState fs b)).processed,
        errors := (engineLoop env lines (initState fs b)).errors,
        calls := (engineLoop env lines (initState fs b)).calls } := rfl

theorem process_batch_codes_none (env : String → CodeEnv) (fs : LedgerFS)
    (b : Bool) :
    process_batch_codes env fs none b =
      { fs := ⟨some (initLedger b fs.output hdrOut),
               some (initLedger b fs.failed hdrFail)⟩,
        aborted := true,
        total := 0, skipped := 0, processed := 0, errors := 0,
        calls := [] } := rfl

theorem process_batch_codes_shape (env : String → CodeEnv) (fs : LedgerFS)
    (lines : List String) (b : Bool) :
    ∃ esO esF : List LedgerEntry, ∃ csN : List String,
      (process_batch_codes env fs (some lines) b).fs.output =
        some (initLedger b fs.output hdrOut ++
          rowsFrom (if b then 1 else get_last_id fs.output + 1) esO) ∧
      (process_batch_codes env fs (some lines) b).fs.failed =
        some (initLedger b fs.failed hdrFail ++
          rowsFrom (if b then 1 else get_last_id fs.failed + 1) esF) ∧
      (process_batch_codes env fs (some lines) b).calls = csN ∧
      (process_batch_codes env fs (some lines) b).aborted = false ∧
      (∀ e ∈ esO,
        e.1 ∈ processedCodes b
          (if b then [] else load_existing_mappings fs.output) lines ∧
        e.2.1 ≠ "") ∧
      (∀ e ∈ esF,
        e.1 ∈ processedCodes b
          (if b then [] else load_existing_mappings fs.output) lines ∧
        e.2.1 = failMsgOf (env e.1)) ∧
      (∀ x ∈ csN,
        x ∈ processedCodes b
          (if b then [] else load_existing_mappings fs.output) lines) := by
  obtain ⟨esO, esF, csN, h1, h2, h3, h4, h5, h6, h7, h8, h9, h10⟩ :=
    engineLoop_shape env lines (initState fs b)
  refine ⟨esO, esF, csN, ?_, ?_, ?_, rfl, ?_, ?_, ?_⟩
  · rw [process_batch_codes_eq]
    exact congrArg some h1
  · rw [process_batch_codes_eq]
    exact congrArg some h3
  · rw [process_batch_codes_eq]
    simpa using h5
  · exact h8
  · exact h9
  · exact h10

/-! ## Ledger well-formedness across resume runs (claim C5) -/

theorem rowsFrom_length (s : Nat) (es : List LedgerEntry) :
    (rowsFrom s es).length = es.length := by
  induction es generalizing s with
  | nil => rfl
  | cons e es ih =>
    obtain ⟨c, v, t⟩ := e
    simp [rowsFrom, ih (s + 1)]

theorem resume_preserves_wf (env : String → CodeEnv) (fs : LedgerFS)
    (input : Option (List String))
    (ho : fs.output = none ∨ ∃ es, fs.output = some (hdrOut :: rowsFrom 1 es))
    (hf : fs.failed = none ∨ ∃ es, fs.failed = some (hdrFail :: rowsFrom 1 es)) :
    (∃ es, (process_batch_codes env fs input false).fs.output =
      some (hdrOut :: rowsFrom 1 es)) ∧
    (∃ es, (process_batch_codes env fs input false).fs.failed =
      some (hdrFail :: rowsFrom 1 es)) := by
  cases input with
  | none =>
    rw [process_batch_codes_none]
    constructor
    · rcases ho with h | ⟨es, h⟩
      · exact ⟨[], by simp [initLedger, h, rowsFrom]⟩
      · exact ⟨es, by simp [initLedger, h]⟩
    · rcases hf with h | ⟨es, h⟩
      · exact ⟨[], by simp [initLedger, h, rowsFrom]⟩
      · exact ⟨es, by simp [initLedger, h]⟩
  | some lines =>
    obtain ⟨esO, esF, csN, h1, h2, h3, h4, h5, h6, h7⟩ :=
      process_batch_codes_shape env fs lines false
    constructor
    · rcases ho with h | ⟨es, h⟩
      · refine ⟨esO, ?_⟩
        rw [h1]
        simp [initLedger, h, get_last_id, rowsFrom]
      · refine ⟨es ++ esO, ?_⟩
        rw [h1]
        simp only [initLedger, h, get_last_id_rowsFrom, if_neg Bool.false_ne_true,
          rowsFrom_append, Nat.add_comm 1 es.length]
        simp
    · rcases hf with h | ⟨es, h⟩
      · refine ⟨esF, ?_⟩
        rw [h2]
        simp [initLedger, h, get_last_id, rowsFrom]
      · refine ⟨es ++ esF, ?_⟩
        rw [h2]
        simp only [initLedger, h, get_last_id_rowsFrom, if_neg Bool.false_ne_true,
          rowsFrom_append, Nat.add_comm 1 es.length]
        simp

theorem runSeq_wf (specs : List RunSpec) : ∀ fs : LedgerFS,
    (fs.output = none ∨ ∃ es, fs.output = some (hdrOut :: rowsFrom 1 es)) →
    (fs.failed = none ∨ ∃ es, fs.failed = some (hdrFail :: rowsFrom 1 es)) →
    ((runSeq fs specs).output = none ∨
      ∃ es, (runSeq fs specs).output = some (hdrOut :: rowsFrom 1 es)) ∧
    ((runSeq fs specs).failed = none ∨
      ∃ es, (runSeq fs specs).failed = some (hdrFail :: rowsFrom 1 es)) := by
  induction specs with
  | nil => intro fs ho hf; exact ⟨ho, hf⟩
  | cons s specs ih =>
    intro fs ho hf
    obtain ⟨⟨es1, h1⟩, ⟨es2, h2⟩⟩ := resume_preserves_wf s.env fs s.input ho hf
    exact ih _ (Or.inr ⟨es1, h1⟩) (Or.inr ⟨es2, h2⟩)

theorem idColumn_of_wf (hdr : CsvRow) (file : LedgerFile)
    (h : file = some (hdr :: rowsFrom 1 es)) :
    idColumn file = (List.range' 1 (idColumn file).length 1).map natToStr := by
  subst h
  have hcol : idColumn (some (hdr :: rowsFrom 1 es)) =
      (List.range' 1 es.length 1).map natToStr := rowsFrom_idColumn 1 es
  rw [hcol]
  simp [List.length_range']

/-! ## Processed codes are exactly the non-skipped ones -/

theorem processedCodes_keyMem (E : List (Option String × Option String))
    (lines : List String) (x : String)
    (h : x ∈ processedCodes false E lines) : keyMem E x = false := by
  rw [processedCodes, List.mem_filterMap] at h
  obtain ⟨l, _, hl⟩ := h
  by_cases h1 : (pyStrip l == "") = true
  · simp [h1] at hl
  · have h1' : ¬pyStrip l = "" := by simpa using eq_false_of_ne_true h1
    by_cases h2 : keyMem E (pyStrip l) = true
    · simp [h1', h2] at hl
    · have h2' := eq_false_of_ne_true h2
      simp [h1', h2'] at hl
      rw [← hl]
      exact h2'

theorem processedCodes_mem (E : List (Option String × Option String))
    (b : Bool) (lines : List String) (l : String) (hmem : l ∈ lines)
    (hne : ¬pyStrip l = "") (hsk : (!b && keyMem E (pyStrip l)) = false) :
    pyStrip l ∈ processedCodes b E lines := by
  rw [processedCodes, List.mem_filterMap]
  refine ⟨l, hmem, ?_⟩
  have hsk' : ¬(b = false ∧ keyMem E (pyStrip l) = true) := by
    intro hc
    rw [hc.1, hc.2] at hsk
    simp at hsk
  simp [hne, hsk']

/-! ## The client under an always-successful credential exchange -/

theorem make_fhir_request_auth (tok0 : Option String) (e : CodeEnv)
    (h : tokenTruthy e.tokenResult = true) :
    (make_fhir_request tok0 e).2.1 = true ∧
    (make_fhir_request tok0 e).2.2 = doPost e.http := by
  unfold make_fhir_request
  by_cases ht : tokenTruthy tok0 = true
  · simp [ht]
  · simp [eq_false_of_ne_true ht, h]

theorem doPost_getD (e : CodeEnv) :
    (doPost e.http).getD Json.null = respOf e := by
  cases h : e.http <;> simp [doPost, respOf, h]

/-! ## Success / failure entry lists over a cons -/

theorem succEntries_cons_pos (env : String → CodeEnv) (c : String)
    (cs : List String) (h : isSuccessEnv (env c) = true) :
    succEntries env (c :: cs) =
      (c, succValOf (env c), (env c).ts) :: succEntries env cs := by
  simp [succEntries, h]

theorem succEntries_cons_neg (env : String → CodeEnv) (c : String)
    (cs : List String) (h : isSuccessEnv (env c) = false) :
    succEntries env (c :: cs) = succEntries env cs := by
  simp [succEntries, h]

theorem failEntries_cons_pos (env : String → CodeEnv) (c : String)
    (cs : List String) (h : isSuccessEnv (env c) = false) :
    failEntries env (c :: cs) =
      (c, failMsgOf (env c), (env c).ts) :: failEntries env cs := by
  simp [failEntries, h]

theorem failEntries_cons_neg (env : String → CodeEnv) (c : String)
    (cs : List String) (h : isSuccessEnv (env c) = true) :
    failEntries env (c :: cs) = failEntries env cs := by
  simp [failEntries, h]

/-! ## Exact run characterization when the credential exchange always
succeeds: each processed code's outcome is a pure function of its
environment. -/

theorem engineLoop_auth (env : String → CodeEnv)
    (hAuth : ∀ c, tokenTruthy (env c).tokenResult = true) (lines : List String) :
    ∀ st : EngineState,
      (engineLoop env lines st).outRows = st.outRows ++
        rowsFrom st.currentId
          (succEntries env (processedCodes st.full_refresh st.existing lines)) ∧
      (engineLoop env lines st).currentId = st.currentId +
        (succEntries env (processedCodes st.full_refresh st.existing lines)).length ∧
      (engineLoop env lines st).failRows = st.failRows ++
        rowsFrom st.failedId
          (failEntries env (processedCodes st.full_refresh st.existing lines)) ∧
      (engineLoop env lines st).failedId = st.failedId +
        (failEntries env (processedCodes st.full_refresh st.existing lines)).length := by
  induction lines with
  | nil =>
    intro st
    refine ⟨?_, ?_, ?_, ?_⟩ <;> simp [engineLoop, processedCodes, succEntries,
      failEntries, rowsFrom]
  | cons l lines ih =>
    intro st
    have hstep : engineLoop env (l :: lines) st =
        engineLoop env lines (processCode env st l) := rfl
    by_cases hb : (pyStrip l == "") = true
    · rw [hstep, processCode_blank env st l hb,
        processedCodes_cons_blank st.full_refresh st.existing l lines hb]
      exact ih st
    · have hb' := eq_false_of_ne_true hb
      by_cases hs : (!st.full_refresh && keyMem st.existing (pyStrip l)) = true
      · rw [hstep, processCode_skip env st l hb' hs,
          processedCodes_cons_skip st.full_refresh st.existing l lines hb' hs]
        exact ih { st with total := st.total + 1, skipped := st.skipped + 1 }
      · have hs' := eq_false_of_ne_true hs
        have hmk := make_fhir_request_auth st.accessToken (env (pyStrip l))
          (hAuth (pyStrip l))
        have hresp : ((make_fhir_request st.accessToken (env (pyStrip l))).2.2).getD
            Json.null = respOf (env (pyStrip l)) := by
          rw [hmk.2, doPost_getD]
        rw [hstep, processedCodes_cons_proc st.full_refresh st.existing l lines hb' hs']
        cases ha : (env (pyStrip l)).artifactError with
        | some msg =>
          have hsucc : isSuccessEnv (env (pyStrip l)) = false := by
            simp [isSuccessEnv, ha]
          rw [processCode_artifact env st l msg hb' hs' ha,
            succEntries_cons_neg env _ _ hsucc, failEntries_cons_pos env _ _ hsucc]
          obtain ⟨g1, g2, g3, g4⟩ := ih { st with
            accessToken := (make_fhir_request st.accessToken (env (pyStrip l))).1,
            calls := if (make_fhir_request st.accessToken (env (pyStrip l))).2.1
                     then st.calls ++ [pyStrip l] else st.calls,
            total := st.total + 1,
            errors := st.errors + 1,
            failRows := st.failRows ++
              [[natToStr st.failedId, pyStrip l, "ERROR: " ++ msg,
                (env (pyStrip l)).ts]],
            failedId := st.failedId + 1 }
          refine ⟨g1, g2, ?_, ?_⟩
          · rw [g3]
            have hmsg : failMsgOf (env (pyStrip l)) = "ERROR: " ++ msg := by
              simp [failMsgOf, ha]
            simp [rowsFrom, hmsg, List.append_assoc]
          · rw [g4]; simp; omega
        | none =>
          by_cases ht : truthy (extract_icd10_from_response
              (((make_fhir_request st.accessToken (env (pyStrip l))).2.2).getD
                .null)) = true
          · have hsucc : isSuccessEnv (env (pyStrip l)) = true := by
              rw [hresp] at ht
              simp [isSuccessEnv, ha, ht]
            rw [processCode_success env st l hb' hs' ha ht,
              succEntries_cons_pos env _ _ hsucc, failEntries_cons_neg env _ _ hsucc]
            obtain ⟨g1, g2, g3, g4⟩ := ih { st with
              accessToken := (make_fhir_request st.accessToken (env (pyStrip l))).1,
              calls := if (make_fhir_request st.accessToken (env (pyStrip l))).2.1
                       then st.calls ++ [pyStrip l] else st.calls,
              total := st.total + 1,
              outRows := st.outRows ++
                [[natToStr st.currentId, pyStrip l,
                  pyStrTop (extract_icd10_from_response
                    (((make_fhir_request st.accessToken (env (pyStrip l))).2.2).getD
                      .null)),
                  (env (pyStrip l)).ts]],
              currentId := st.currentId + 1,
              processed := st.processed + 1 }
            refine ⟨?_, ?_, g3, g4⟩
            · rw [g1]
              have hval : pyStrTop (extract_icd10_from_response
                  (((make_fhir_request st.accessToken (env (pyStrip l))).2.2).getD
                    .null)) = succValOf (env (pyStrip l)) := by
                rw [hresp]; rfl
              simp [rowsFrom, hval, List.append_assoc]
            · rw [g2]; simp; omega
          · have ht' := eq_false_of_ne_true ht
            have hsucc : isSuccessEnv (env (pyStrip l)) = false := by
              rw [hresp] at ht'
              simp [isSuccessEnv, ha, ht']
            rw [processCode_nomatch env st l hb' hs' ha ht',
              succEntries_cons_neg env _ _ hsucc, failEntries_cons_pos env _ _ hsucc]
            obtain ⟨g1, g2, g3, g4⟩ := ih { st with
              accessToken := (make_fhir_request st.accessToken (env (pyStrip l))).1,
              calls := if (make_fhir_request st.accessToken (env (pyStrip l))).2.1
                       then st.calls ++ [pyStrip l] else st.calls,
              total := st.total + 1,
              errors := st.errors + 1,
              failRows := st.failRows ++
                [[natToStr st.failedId, pyStrip l, "No mapping found",
                  (env (pyStrip l)).ts]],
              failedId := st.failedId + 1 }
            refine ⟨g1, g2, ?_, ?_⟩
            · rw [g3]
              have hmsg : failMsgOf (env (pyStrip l)) = "No mapping found" := by
                simp [failMsgOf, ha]
              simp [rowsFrom, hmsg, List.append_assoc]
            · rw [g4]; simp; omega

/-! ## A resume run from absent ledgers coincides with a full refresh -/

theorem processCode_existing (env : String → CodeEnv) (st : EngineState)
    (l : String) : (processCode env st l).existing = st.existing := by
  obtain ⟨_, _, _, _, _, _, _, _, h6, _, _, _, _⟩ := engineLoop_shape env [l] st
  exact h6

theorem processCode_flag (env : String → CodeEnv) (st : EngineState)
    (b' : Bool) (l : String) (hex : st.existing = []) :
    processCode env { st with full_refresh := b' } l =
      { processCode env st l with full_refresh := b' } := by
  by_cases hb : (pyStrip l == "") = true
  · rw [processCode_blank _ _ _ hb, processCode_blank _ _ _ hb]
  · have hb' := eq_false_of_ne_true hb
    have hkm : keyMem st.existing (pyStrip l) = false := by rw [hex]; rfl
    have hs1 : (!({ st with full_refresh := b' } : EngineState).full_refresh &&
        keyMem ({ st with full_refresh := b' } : EngineState).existing
          (pyStrip l)) = false := by
      show (!b' && keyMem st.existing (pyStrip l)) = false
      rw [hkm]; simp
    have hs2 : (!st.full_refresh && keyMem st.existing (pyStrip l)) = false := by
      rw [hkm]; simp
    cases ha : (env (pyStrip l)).artifactError with
    | some msg =>
      rw [processCode_artifact env _ l msg hb' hs1 ha,
        processCode_artifact env st l msg hb' hs2 ha]
    | none =>
      by_cases ht : truthy (extract_icd10_from_response
          (((make_fhir_request st.accessToken (env (pyStrip l))).2.2).getD
            .null)) = true
      · rw [processCode_success env _ l hb' hs1 ha ht,
          processCode_success env st l hb' hs2 ha ht]
      · have ht' := eq_false_of_ne_true ht
        rw [processCode_nomatch env _ l hb' hs1 ha ht',
          processCode_nomatch env st l hb' hs2 ha ht']

theorem engineLoop_flag (env : String → CodeEnv) (lines : List String) :
    ∀ (st : EngineState) (b' : Bool), st.existing = [] →
      engineLoop env lines { st with full_refresh := b' } =
        { engineLoop env lines st with full_refresh := b' } := by
  induction lines with
  | nil => intro st b' _; rfl
  | cons l lines ih =>
    intro st b' hex
    have hstep : ∀ s : EngineState, engineLoop env (l :: lines) s =
        engineLoop env lines (processCode env s l) := fun _ => rfl
    rw [hstep, hstep, processCode_flag env st b' l hex,
      ih (processCode env st l) b' (by rw [processCode_existing, hex])]

theorem resume_absent_eq_full (env : String → CodeEnv) (lines : List String) :
    process_batch_codes env fsAbsent (some lines) false =
      process_batch_codes env fsAbsent (some lines) true := by
  rw [process_batch_codes_eq, process_batch_codes_eq]
  have hinit : initState fsAbsent true =
      { initState fsAbsent false with full_refresh := true } := rfl
  rw [hinit, engineLoop_flag env lines (initState fsAbsent false) true rfl]

/-! ## The existing-mappings index of an engine-written success ledger -/

theorem buildMappings_rowsFrom (es : List LedgerEntry) :
    ∀ (s : Nat) (acc : List (Option String × Option String)),
      buildMappings hdrOut (rowsFrom s es) acc =
        acc ++ es.map (fun e => (some e.1, some e.2.1)) := by
  induction es with
  | nil => intro s acc; simp [rowsFrom, buildMappings]
  | cons e es ih =>
    intro s acc
    obtain ⟨c, v, t⟩ := e
    show buildMappings hdrOut ([natToStr s, c, v, t] :: rowsFrom (s + 1) es) acc = _
    rw [show buildMappings hdrOut ([natToStr s, c, v, t] :: rowsFrom (s + 1) es) acc =
        buildMappings hdrOut (rowsFrom (s + 1) es) (acc ++ [(some c, some v)]) from rfl,
      ih (s + 1)]
    simp

theorem load_existing_rowsFrom (es : List LedgerEntry) :
    load_existing_mappings (some (hdrOut :: rowsFrom 1 es)) =
      es.map (fun e => (some e.1, some e.2.1)) := by
  show buildMappings hdrOut (rowsFrom 1 es) [] = _
  rw [buildMappings_rowsFrom es 1 []]
  rfl

theorem keyMem_map_entries (es : List LedgerEntry) (c : String) :
    keyMem (es.map fun e => (some e.1, some e.2.1)) c =
      es.any (fun e => e.1 == c) := by
  induction es with
  | nil => rfl
  | cons e es ih =>
    show ((e.1 == c) || keyMem (es.map fun e => (some e.1, some e.2.1)) c) =
      ((e.1 == c) || es.any (fun e => e.1 == c))
    rw [ih]

/-! ## The second resume run processes exactly the failed codes -/

theorem list_any_map {α β : Type} (f : α → β) (l : List α) (p : β → Bool) :
    (l.map f).any p = l.any (fun a => p (f a)) := by
  induction l with
  | nil => rfl
  | cons a l ih =>
    show (p (f a) || (l.map f).any p) = (p (f a) || l.any fun a => p (f a))
    rw [ih]

theorem processedCodes_nil_existing (b b' : Bool) (lines : List String) :
    processedCodes b ([] : List (Option String × Option String)) lines =
      processedCodes b' [] lines := by
  simp [processedCodes, keyMem]

theorem keyMem_succ_index (env : String → CodeEnv) (pcs0 : List String)
    (c : String) (hc : c ∈ pcs0) :
    keyMem ((succEntries env pcs0).map fun e => (some e.1, some e.2.1)) c =
      isSuccessEnv (env c) := by
  rw [keyMem_map_entries]
  unfold succEntries
  rw [list_any_map]
  cases h : isSuccessEnv (env c) with
  | true =>
    apply List.any_eq_true.mpr
    exact ⟨c, List.mem_filter.mpr ⟨hc, h⟩, by simp⟩
  | false =>
    apply List.any_eq_false.mpr
    intro x hx hbeq
    have hx' := List.mem_filter.mp hx
    have hxc : x = c := by simpa using hbeq
    rw [hxc] at hx'
    rw [hx'.2] at h
    simp at h

theorem processedCodes_by_filter (E : List (Option String × Option String))
    (p : String → Bool) (lines : List String)
    (h : ∀ l ∈ lines, ¬pyStrip l = "" → keyMem E (pyStrip l) = p (pyStrip l)) :
    processedCodes false E lines =
      (processedCodes false [] lines).filter (fun c => !p c) := by
  induction lines with
  | nil => rfl
  | cons l lines ih =>
    have htail : ∀ l' ∈ lines, ¬pyStrip l' = "" → keyMem E (pyStrip l') = p (pyStrip l') :=
      fun l' hl' => h l' (List.mem_cons_of_mem _ hl')
    by_cases hb : (pyStrip l == "") = true
    · rw [processedCodes_cons_blank false E l lines hb,
        processedCodes_cons_blank false [] l lines hb, ih htail]
    · have hb' := eq_false_of_ne_true hb
      have hbne : ¬pyStrip l = "" := by simpa using hb'
      have hkey := h l (List.mem_cons_self _ _) hbne
      have hnil : (!false && keyMem ([] : List (Option String × Option String))
          (pyStrip l)) = false := rfl
      rw [processedCodes_cons_proc false [] l lines hb' hnil]
      cases hp : p (pyStrip l) with
      | true =>
        have hsk : (!false && keyMem E (pyStrip l)) = true := by
          rw [hkey, hp]; rfl
        rw [processedCodes_cons_skip false E l lines hb' hsk, ih htail,
          List.filter_cons]
        simp [hp]
      | false =>
        have hsk : (!false && keyMem E (pyStrip l)) = false := by
          rw [hkey, hp]; rfl
        rw [processedCodes_cons_proc false E l lines hb' hsk, ih htail,
          List.filter_cons]
        simp [hp]

theorem succEntries_filter_neg (env : String → CodeEnv) (cs : List String) :
    succEntries env (cs.filter fun c => !isSuccessEnv (env c)) = [] := by
  unfold succEntries
  rw [List.map_eq_nil_iff]
  apply List.filter_eq_nil_iff.mpr
  intro c hc
  have := (List.mem_filter.mp hc).2
  simp at this
  simp [this]

theorem failEntries_filter_self (env : String → CodeEnv) (cs : List String) :
    failEntries env (cs.filter fun c => !isSuccessEnv (env c)) =
      failEntries env cs := by
  unfold failEntries
  congr 1
  apply List.filter_eq_self.mpr
  intro c hc
  exact (List.mem_filter.mp hc).2

theorem full_run_ledgers (env : String → CodeEnv) (lines : List String)
    (hAuth : ∀ c, tokenTruthy (env c).tokenResult = true) :
    (process_batch_codes env fsAbsent (some lines) true).fs.output =
      some (hdrOut :: rowsFrom 1 (succEntries env (processedCodes false [] lines))) ∧
    (process_batch_codes env fsAbsent (some lines) true).fs.failed =
      some (hdrFail :: rowsFrom 1 (failEntries env (processedCodes false [] lines))) := by
  have hfull := engineLoop_auth env hAuth lines (initState fsAbsent true)
  constructor
  · rw [process_batch_codes_eq]
    show some ((engineLoop env lines (initState fsAbsent true)).outRows) = _
    rw [hfull.1]
    show some (([hdrOut] : List CsvRow) ++ rowsFrom 1
      (succEntries env (processedCodes true [] lines))) = _
    rw [processedCodes_nil_existing true false lines]
    simp
  · rw [process_batch_codes_eq]
    show some ((engineLoop env lines (initState fsAbsent true)).failRows) = _
    rw [hfull.2.2.1]
    show some (([hdrFail] : List CsvRow) ++ rowsFrom 1
      (failEntries env (processedCodes true [] lines))) = _
    rw [processedCodes_nil_existing true false lines]
    simp

theorem second_resume_run (env : String → CodeEnv) (lines : List String)
    (hAuth : ∀ c, tokenTruthy (env c).tokenResult = true)
    (SE FE : List LedgerEntry)
    (hSE : SE = succEntries env (processedCodes false [] lines))
    (hFE : FE = failEntries env (processedCodes false [] lines)) :
    (process_batch_codes env
        (process_batch_codes env fsAbsent (some lines) false).fs
        (some lines) false).fs.output =
      (process_batch_codes env fsAbsent (some lines) false).fs.output ∧
    (process_batch_codes env
        (process_batch_codes env fsAbsent (some lines) false).fs
        (some lines) false).fs.failed =
      some (hdrFail :: (rowsFrom 1 FE ++ rowsFrom (FE.length + 1) FE)) := by
  have hr1 := resume_absent_eq_full env lines
  have hfull := full_run_ledgers env lines hAuth
  have hout1 : (process_batch_codes env fsAbsent (some lines) false).fs.output =
      some (hdrOut :: rowsFrom 1 SE) := by
    rw [hr1, hfull.1, hSE]
  have hfail1 : (process_batch_codes env fsAbsent (some lines) false).fs.failed =
      some (hdrFail :: rowsFrom 1 FE) := by
    rw [hr1, hfull.2, hFE]
  have hE2 : load_existing_mappings
      (process_batch_codes env fsAbsent (some lines) false).fs.output =
      SE.map (fun e => (some e.1, some e.2.1)) := by
    rw [hout1, load_existing_rowsFrom]
  have hkey : ∀ l ∈ lines, ¬pyStrip l = "" →
      keyMem (load_existing_mappings
        (process_batch_codes env fsAbsent (some lines) false).fs.output)
        (pyStrip l) = isSuccessEnv (env (pyStrip l)) := by
    intro l hl hne
    rw [hE2, hSE]
    apply keyMem_succ_index
    exact processedCodes_mem [] false lines l hl hne rfl
  have hpcs2 : processedCodes false
      (load_existing_mappings
        (process_batch_codes env fsAbsent (some lines) false).fs.output) lines =
      (processedCodes false [] lines).filter
        (fun c => !isSuccessEnv (env c)) :=
    processedCodes_by_filter _ _ lines hkey
  have hrun2 := engineLoop_auth env hAuth lines
    (initState (process_batch_codes env fsAbsent (some lines) false).fs false)
  constructor
  · rw [process_batch_codes_eq]
    show some ((engineLoop env lines
      (initState (process_batch_codes env fsAbsent (some lines) false).fs
        false)).outRows) = _
    rw [hrun2.1]
    show some (initLedger false
        (process_batch_codes env fsAbsent (some lines) false).fs.output hdrOut ++
      rowsFrom (get_last_id
        (process_batch_codes env fsAbsent (some lines) false).fs.output + 1)
        (succEntries env (processedCodes false
          (load_existing_mappings
            (process_batch_codes env fsAbsent (some lines) false).fs.output)
          lines))) = _
    rw [hpcs2, succEntries_filter_neg, hout1]
    simp [initLedger, rowsFrom]
  · rw [process_batch_codes_eq]
    show some ((engineLoop env lines
      (initState (process_batch_codes env fsAbsent (some lines) false).fs
        false)).failRows) = _
    rw [hrun2.2.2.1]
    show some (initLedger false
        (process_batch_codes env fsAbsent (some lines) false).fs.failed hdrFail ++
      rowsFrom (get_last_id
        (process_batch_codes env fsAbsent (some lines) false).fs.failed + 1)
        (failEntries env (processedCodes false
          (load_existing_mappings
            (process_batch_codes env fsAbsent (some lines) false).fs.output)
          lines))) = _
    rw [hpcs2, failEntries_filter_self, hfail1, ← hFE]
    rw [get_last_id_rowsFrom]
    simp [initLedger]

/-! ## Behaviour when the credential exchange always fails -/

theorem engineLoop_token_fail (env : String → CodeEnv)
    (hTok : ∀ c, (env c).tokenResult = none)
    (hArt : ∀ c, (env c).artifactError = none) (lines : List String) :
    ∀ st : EngineState, st.accessToken = none →
      (engineLoop env lines st).calls = st.calls ∧
      (engineLoop env lines st).outRows = st.outRows ∧
      (engineLoop env lines st).failRows = st.failRows ++
        rowsFrom st.failedId
          ((processedCodes st.full_refresh st.existing lines).map
            (fun c => (c, "No mapping found", (env c).ts))) ∧
      (engineLoop env lines st).failedId = st.failedId +
        (processedCodes st.full_refresh st.existing lines).length := by
  induction lines with
  | nil =>
    intro st _
    refine ⟨rfl, rfl, ?_, ?_⟩ <;> simp [engineLoop, processedCodes, rowsFrom]
  | cons l lines ih =>
    intro st hst
    have hstep : engineLoop env (l :: lines) st =
        engineLoop env lines (processCode env st l) := rfl
    by_cases hb : (pyStrip l == "") = true
    · rw [hstep, processCode_blank env st l hb,
        processedCodes_cons_blank st.full_refresh st.existing l lines hb]
      exact ih st hst
    · have hb' := eq_false_of_ne_true hb
      by_cases hs : (!st.full_refresh && keyMem st.existing (pyStrip l)) = true
      · rw [hstep, processCode_skip env st l hb' hs,
          processedCodes_cons_skip st.full_refresh st.existing l lines hb' hs]
        exact ih { st with total := st.total + 1, skipped := st.skipped + 1 } hst
      · have hs' := eq_false_of_ne_true hs
        have hmk : make_fhir_request st.accessToken (env (pyStrip l)) =
            (none, false, none) := by
          rw [hst]
          unfold make_fhir_request
          simp [tokenTruthy, hTok (pyStrip l)]
        have ht' : truthy (extract_icd10_from_response
            (((make_fhir_request st.accessToken (env (pyStrip l))).2.2).getD
              .null)) = false := by
          rw [hmk]
          rfl
        rw [hstep, processCode_nomatch env st l hb' hs' (hArt (pyStrip l)) ht',
          processedCodes_cons_proc st.full_refresh st.existing l lines hb' hs']
        obtain ⟨g1, g2, g3, g4⟩ := ih { st with
          accessToken := (make_fhir_request st.accessToken (env (pyStrip l))).1,
          calls := if (make_fhir_request st.accessToken (env (pyStrip l))).2.1
                   then st.calls ++ [pyStrip l] else st.calls,
          total := st.total + 1,
          errors := st.errors + 1,
          failRows := st.failRows ++
            [[natToStr st.failedId, pyStrip l, "No mapping found",
              (env (pyStrip l)).ts]],
          failedId := st.failedId + 1 } (by rw [hmk])
        refine ⟨?_, g2, ?_, ?_⟩
        · rw [g1, hmk]
          simp
        · rw [g3]
          simp [rowsFrom, List.append_assoc]
        · rw [g4]
          simp
          omega

/-- C2 (amended): when the credential exchange with the token endpoint
fails (and artifact writes succeed), the run does not fail fatally: it
completes without aborting, no translate HTTP call is ever issued (the
client checks the token before issuing the request), but every processed
code receives a "No mapping found" row in the failure ledger — the
failure is neither fatal nor surfaced before codes are processed.  (The
claim as stated is refuted by `token_failure_writes_rows_ce`.) -/
theorem token_failure_run (env : String → CodeEnv) (fs : LedgerFS)
    (lines : List String) (b : Bool)
    (hTok : ∀ c, (env c).tokenResult = none)
    (hArt : ∀ c, (env c).artifactError = none) :
    (process_batch_codes env fs (some lines) b).aborted = false ∧
    (process_batch_codes env fs (some lines) b).calls = [] ∧
    (process_batch_codes env fs (some lines) b).fs.output =
      some (initLedger b fs.output hdrOut) ∧
    (process_batch_codes env fs (some lines) b).fs.failed =
      some (initLedger b fs.failed hdrFail ++
        rowsFrom (if b then 1 else get_last_id fs.failed + 1)
          ((processedCodes b
              (if b then [] else load_existing_mappings fs.output) lines).map
            (fun c => (c, "No mapping found", (env c).ts)))) := by
  obtain ⟨g1, g2, g3, g4⟩ :=
    engineLoop_token_fail env hTok hArt lines (initState fs b) rfl
  refine ⟨rfl, ?_, ?_, ?_⟩
  · rw [process_batch_codes_eq]
    show (engineLoop env lines (initState fs b)).calls = []
    rw [g1]
    rfl
  · rw [process_batch_codes_eq]
    exact congrArg some g2
  · rw [process_batch_codes_eq]
    exact congrArg some g3

/-! ## `get_last_id` returns the last numeric id; under sortedness this is
the maximum (claim C4) -/

theorem lastIdFold_eq (rows : List CsvRow) : ∀ a : Nat,
    lastIdFold rows a =
      (rows.filterMap fun r =>
        match r with
        | [] => none
        | c :: _ => if isPyDigits c then some (pyInt c) else none).foldl
        (fun _ i => i) a := by
  induction rows with
  | nil => intro a; rfl
  | cons row rest ih =>
    intro a
    cases row with
    | nil =>
      show lastIdFold rest a = _
      rw [List.filterMap_cons]
      exact ih a
    | cons c cs =>
      by_cases hd : isPyDigits c = true
      · show lastIdFold rest (if isPyDigits c then pyInt c else a) = _
        rw [List.filterMap_cons]
        simp only [hd, if_true, ih]
        rw [List.foldl_cons]
      · have hd' := eq_false_of_ne_true hd
        show lastIdFold rest (if isPyDigits c then pyInt c else a) = _
        rw [List.filterMap_cons]
        simp only [hd', if_false, Bool.false_eq_true, ih]

theorem keepLast_sorted (l : List Nat) : ∀ a : Nat, l.Sorted (· ≤ ·) →
    (∀ x ∈ l, a ≤ x) → l.foldl (fun _ i => i) a = l.foldl max a := by
  induction l with
  | nil => intro a _ _; rfl
  | cons i l ih =>
    intro a hs hle
    have hs' := List.sorted_cons.mp hs
    show l.foldl (fun _ i => i) i = l.foldl max (max a i)
    rw [ih i hs'.2 hs'.1, Nat.max_eq_right (hle i (List.mem_cons_self _ _))]

theorem get_last_id_keepLast (file : LedgerFile) :
    get_last_id file = (digitIds file).foldl (fun _ i => i) 0 := by
  match file with
  | none => rfl
  | some [] => rfl
  | some (hdr :: rows) => exact lastIdFold_eq rows 0

theorem get_last_id_sorted_max (file : LedgerFile)
    (h : (digitIds file).Sorted (· ≤ ·)) :
    get_last_id file = (digitIds file).foldl max 0 := by
  rw [get_last_id_keepLast]
  exact keepLast_sorted _ 0 h (fun x _ => Nat.zero_le x)

/-! ## The extractor's first-match searches, made pure under
well-formedness (claim C8) -/

theorem find?_eq_head?_filter' {α : Type} (p : α → Bool) (l : List α) :
    l.find? p = (l.filter p).head? := by
  induction l with
  | nil => rfl
  | cons a l ih =>
    by_cases h : p a = true
    · rw [List.find?_cons_of_pos _ h, List.filter_cons_of_pos h]
      rfl
    · have h' := eq_false_of_ne_true h
      rw [List.find?_cons_of_neg _ (by simp [h']), List.filter_cons_of_neg (by simp [h']), ih]

theorem findByName_eq (ps : List Json) (name : String)
    (h : ∀ p ∈ ps, hasNameField p = true) :
    findByName ps name = .ok (ps.find? (fun p => isNameB p name)) := by
  induction ps with
  | nil => rfl
  | cons p rest ih =>
    have hp := h p (List.mem_cons_self _ _)
    have htail : ∀ q ∈ rest, hasNameField q = true :=
      fun q hq => h q (List.mem_cons_of_mem _ hq)
    cases p with
    | obj g =>
      simp only [hasNameField] at hp
      obtain ⟨v, hv⟩ := Option.isSome_iff_exists.mp hp
      show (match pyIndex (Json.obj g) "name" with
        | .error e => (Except.error e : Except String (Option Json))
        | .ok n => if jsonEqStr n name then Except.ok (some (Json.obj g))
                   else findByName rest name) = _
      have hidx : pyIndex (Json.obj g) "name" = .ok v := by
        simp [pyIndex, hv]
      rw [hidx]
      show (if jsonEqStr v name = true then Except.ok (some (Json.obj g))
        else findByName rest name) = _
      have hnm : isNameB (Json.obj g) name = jsonEqStr v name := by
        simp [isNameB, hv]
      by_cases hj : jsonEqStr v name = true
      · rw [if_pos hj, List.find?_cons_of_pos _ (by rw [hnm]; exact hj)]
      · have hj' := eq_false_of_ne_true hj
        rw [if_neg (by simp [hj']), List.find?_cons_of_neg _ (by simp [hnm, hj']), ih htail]
    | null => simp [hasNameField] at hp
    | bool b => simp [hasNameField] at hp
    | num n => simp [hasNameField] at hp
    | str s => simp [hasNameField] at hp
    | arr xs => simp [hasNameField] at hp

theorem filter_perm_eq {α : Type} (p : α → Bool) (l l' : List α)
    (hperm : l.Perm l') (hlen : (l.filter p).length ≤ 1) :
    l.filter p = l'.filter p := by
  have hp := hperm.filter p
  match hfl : l.filter p with
  | [] =>
    rw [hfl] at hp
    exact (hp.symm.eq_nil).symm
  | [a] =>
    rw [hfl] at hp
    exact (List.perm_singleton.mp hp.symm).symm
  | a :: b :: t =>
    rw [hfl] at hlen
    simp at hlen

theorem matchRel_hasName (a b : Json) (h : MatchRel a b) :
    hasNameField a = hasNameField b := by
  rcases h with rfl | ⟨ga, gb, qs, qs', ha, hb, hna, hnb, _⟩
  · rfl
  · subst ha; subst hb
    simp [hasNameField, hna, hnb]

theorem matchRel_isNameB (a b : Json) (name : String) (h : MatchRel a b) :
    isNameB a name = isNameB b name := by
  rcases h with rfl | ⟨ga, gb, qs, qs', ha, hb, hna, hnb, _⟩
  · rfl
  · subst ha; subst hb
    simp [isNameB, hna, hnb]

theorem matchRel_result_eq (a b : Json) (h : MatchRel a b)
    (hres : isNameB a "result" = true) : a = b := by
  rcases h with rfl | ⟨ga, gb, qs, qs', ha, hb, hna, hnb, _⟩
  · rfl
  · subst ha
    rw [isNameB] at hres
    simp only [hna] at hres
    simp [jsonEqStr] at hres

theorem forall2_filter_result (ps qs : List Json)
    (h : List.Forall₂ MatchRel ps qs) :
    ps.filter (fun p => isNameB p "result") =
      qs.filter (fun p => isNameB p "result") := by
  induction h with
  | nil => rfl
  | @cons a b l1 l2 hab htail ih =>
    by_cases hr : isNameB a "result" = true
    · have hq := matchRel_result_eq a b hab hr
      subst hq
      rw [List.filter_cons, List.filter_cons]
      simp only [hr, if_true, ih]
    · have hr' := eq_false_of_ne_true hr
      have hrb : isNameB b "result" = false := by
        rw [← matchRel_isNameB a b "result" hab]
        exact hr'
      rw [List.filter_cons, List.filter_cons]
      simp only [hr', hrb, Bool.false_eq_true, if_false, ih]

theorem forall2_filter_match (ps qs : List Json)
    (h : List.Forall₂ MatchRel ps qs) :
    List.Forall₂ MatchRel (ps.filter (fun p => isNameB p "match"))
      (qs.filter (fun p => isNameB p "match")) := by
  induction h with
  | nil => exact List.Forall₂.nil
  | @cons a b l1 l2 hab htail ih =>
    have hEq := matchRel_isNameB a b "match" hab
    by_cases hm : isNameB a "match" = true
    · have hm2 : isNameB b "match" = true := by rw [← hEq]; exact hm
      rw [List.filter_cons, List.filter_cons]
      simp only [hm, hm2, if_true]
      exact List.Forall₂.cons hab ih
    · have hm' := eq_false_of_ne_true hm
      have hm2 : isNameB b "match" = false := by rw [← hEq]; exact hm'
      rw [List.filter_cons, List.filter_cons]
      simp only [hm', hm2, Bool.false_eq_true, if_false]
      exact ih

theorem partLoop_eq (qs : List Json) (h : ∀ q ∈ qs, partHazard q = false) :
    partLoop qs = .ok
      (match qs.find? qualifiesB with
       | some q => codeOfPart q
       | none => .str "") := by
  induction qs with
  | nil => rfl
  | cons q rest ih =>
    have hq := h q (List.mem_cons_self _ _)
    have htail : ∀ x ∈ rest, partHazard x = false :=
      fun x hx => h x (List.mem_cons_of_mem _ hx)
    cases q with
    | null => simp [partHazard] at hq
    | bool b => simp [partHazard] at hq
    | num n => simp [partHazard] at hq
    | str s => simp [partHazard] at hq
    | arr xs => simp [partHazard] at hq
    | obj g =>
      cases hv : lookupField g "name" with
      | none =>
        have hql : qualifiesB (Json.obj g) = false := by
          simp [qualifiesB, hv]
        show (if jsonEqStr ((lookupField g "name").getD Json.null) "concept" = true
          then _ else partLoop rest) = _
        rw [hv]
        simp only [Option.getD_some, Option.getD_none]
        rw [if_neg (by simp [jsonEqStr])]
        rw [List.find?_cons_of_neg _ (by simp [hql]), ih htail]
      | some v =>
        by_cases hc : jsonEqStr v "concept" = true
        · cases hvc : lookupField g "valueCoding" with
          | none =>
            have hql : qualifiesB (Json.obj g) = false := by
              simp [qualifiesB, hvc]
            show (if jsonEqStr ((lookupField g "name").getD Json.null) "concept" = true
              then (match pyContains (Json.obj g) "valueCoding" with
                | .error e => (Except.error e : Except String Json)
                | .ok false => partLoop rest
                | .ok true => _) else partLoop rest) = _
            rw [hv]
            simp only [Option.getD_some, Option.getD_none]
            rw [if_pos hc]
            show (match pyContains (Json.obj g) "valueCoding" with
              | .error e => (Except.error e : Except String Json)
              | .ok false => partLoop rest
              | .ok true => _) = _
            have hcon : pyContains (Json.obj g) "valueCoding" = .ok false := by
              simp [pyContains, hvc]
            rw [hcon]
            rw [List.find?_cons_of_neg _ (by simp [hql]), ih htail]
          | some vc =>
            cases vc with
            | obj vg =>
              have hcon : pyContains (Json.obj g) "valueCoding" = .ok true := by
                simp [pyContains, hvc]
              have hidx : pyIndex (Json.obj g) "valueCoding" = .ok (Json.obj vg) := by
                simp [pyIndex, hvc]
              by_cases hsy : jsonEqStr ((lookupField vg "system").getD Json.null)
                  icd10SystemUri = true
              · have hql : qualifiesB (Json.obj g) = true := by
                  cases hsv : lookupField vg "system" with
                  | none =>
                    rw [hsv] at hsy
                    simp only [Option.getD_some, Option.getD_none] at hsy
                    simp [jsonEqStr] at hsy
                  | some sv =>
                    rw [hsv] at hsy
                    simp only [Option.getD_some, Option.getD_none] at hsy
                    simp [qualifiesB, hv, hc, hvc, hsv, hsy]
                show (if jsonEqStr ((lookupField g "name").getD Json.null)
                    "concept" = true
                  then (match pyContains (Json.obj g) "valueCoding" with
                    | .error e => (Except.error e : Except String Json)
                    | .ok false => partLoop rest
                    | .ok true =>
                      match pyIndex (Json.obj g) "valueCoding" with
                      | .error e => .error e
                      | .ok vc =>
                        match pyGet vc "system" Json.null with
                        | .error e => .error e
                        | .ok sys =>
                          if jsonEqStr sys icd10SystemUri = true
                          then pyGet vc "code" (Json.str "")
                          else partLoop rest)
                  else partLoop rest) = _
                rw [hv]
                simp only [Option.getD_some, Option.getD_none]
                rw [if_pos hc, hcon, hidx]
                show (match pyGet (Json.obj vg) "system" Json.null with
                  | .error e => (Except.error e : Except String Json)
                  | .ok sys =>
                    if jsonEqStr sys icd10SystemUri = true
                    then pyGet (Json.obj vg) "code" (Json.str "")
                    else partLoop rest) = _
                show (if jsonEqStr ((lookupField vg "system").getD Json.null)
                    icd10SystemUri = true
                  then pyGet (Json.obj vg) "code" (Json.str "")
                  else partLoop rest) = _
                rw [if_pos hsy, List.find?_cons_of_pos _ hql]
                have hcode : codeOfPart (Json.obj g) =
                    (lookupField vg "code").getD (Json.str "") := by
                  simp [codeOfPart, hvc]
                show Except.ok ((lookupField vg "code").getD (Json.str "")) =
                  Except.ok (codeOfPart (Json.obj g))
                rw [hcode]
              · have hsy' := eq_false_of_ne_true hsy
                have hql : qualifiesB (Json.obj g) = false := by
                  cases hsv : lookupField vg "system" with
                  | none => simp [qualifiesB, hv, hc, hvc, hsv]
                  | some sv =>
                    rw [hsv] at hsy'
                    simp only [Option.getD_some] at hsy'
                    simp [qualifiesB, hv, hc, hvc, hsv, hsy']
                show (if jsonEqStr ((lookupField g "name").getD Json.null)
                    "concept" = true
                  then (match pyContains (Json.obj g) "valueCoding" with
                    | .error e => (Except.error e : Except String Json)
                    | .ok false => partLoop rest
                    | .ok true =>
                      match pyIndex (Json.obj g) "valueCoding" with
                      | .error e => .error e
                      | .ok vc =>
                        match pyGet vc "system" Json.null with
                        | .error e => .error e
                        | .ok sys =>
                          if jsonEqStr sys icd10SystemUri = true
                          then pyGet vc "code" (Json.str "")
                          else partLoop rest)
                  else partLoop rest) = _
                rw [hv]
                simp only [Option.getD_some, Option.getD_none]
                rw [if_pos hc, hcon, hidx]
                show (if jsonEqStr ((lookupField vg "system").getD Json.null)
                    icd10SystemUri = true
                  then pyGet (Json.obj vg) "code" (Json.str "")
                  else partLoop rest) = _
                rw [if_neg (by simp [hsy']), List.find?_cons_of_neg _ (by simp [hql]),
                  ih htail]
            | null => simp [partHazard, hv, hc, hvc] at hq
            | bool b => simp [partHazard, hv, hc, hvc] at hq
            | num n => simp [partHazard, hv, hc, hvc] at hq
            | str s => simp [partHazard, hv, hc, hvc] at hq
            | arr xs => simp [partHazard, hv, hc, hvc] at hq
        · have hc' := eq_false_of_ne_true hc
          have hql : qualifiesB (Json.obj g) = false := by
            simp [qualifiesB, hv, hc']
          show (if jsonEqStr ((lookupField g "name").getD Json.null) "concept" = true
            then _ else partLoop rest) = _
          rw [hv]
          simp only [Option.getD_some, Option.getD_none]
          rw [if_neg (by simp [hc']), List.find?_cons_of_neg _ (by simp [hql]),
            ih htail]

theorem forall2_mem_right {α β : Type} {R : α → β → Prop} {l1 : List α}
    {l2 : List β} (h : List.Forall₂ R l1 l2) (b : β) (hb : b ∈ l2) :
    ∃ a, a ∈ l1 ∧ R a b := by
  induction h with
  | nil => simp at hb
  | @cons x y t1 t2 hxy htail ih =>
    rcases List.mem_cons.mp hb with rfl | hb
    · exact ⟨x, List.mem_cons_self _ _, hxy⟩
    · obtain ⟨a, ha, hr⟩ := ih hb
      exact ⟨a, List.mem_cons_of_mem _ ha, hr⟩

theorem forall2_head?_rel {α β : Type} {R : α → β → Prop} {l1 : List α}
    {l2 : List β} (h : List.Forall₂ R l1 l2) :
    (l1.head? = none ∧ l2.head? = none) ∨
    ∃ a b, l1.head? = some a ∧ l2.head? = some b ∧ R a b := by
  cases h with
  | nil => exact Or.inl ⟨rfl, rfl⟩
  | cons hab _ => exact Or.inr ⟨_, _, rfl, rfl, hab⟩

theorem matchEval_partLoop (g : List (String × Json)) (q : List Json)
    (hpart : lookupField g "part" = some (Json.arr q))
    (hname : lookupField g "name" = some (Json.str "match")) :
    matchEval (Json.obj g) = partLoop q := by
  have htg : truthy (Json.obj g) = true := by
    cases g with
    | nil => simp [lookupField] at hname
    | cons kv rest => simp [truthy]
  unfold matchEval
  rw [if_neg (by simp [htg])]
  have hc : pyContains (Json.obj g) "part" = .ok true := by
    simp [pyContains, hpart]
  rw [hc]
  show (match pyIndex (Json.obj g) "part" with
    | .error e => (Except.error e : Except String Json)
    | .ok pj2 =>
      match pyIter pj2 with
      | .error e => .error e
      | .ok parts => partLoop parts) = _
  have hi : pyIndex (Json.obj g) "part" = .ok (Json.arr q) := by
    simp [pyIndex, hpart]
  rw [hi]
  rfl

theorem matchEval_congr (mp mp' : Json) (hrel : MatchRel mp mp') :
    matchEval mp = matchEval mp' := by
  rcases hrel with rfl | ⟨ga, gb, qs, qs', ha, hb, hna, hnb, hpa, hpb, hqperm, hqwf⟩
  · rfl
  · subst ha; subst hb
    rw [matchEval_partLoop ga qs hpa hna, matchEval_partLoop gb qs' hpb hnb]
    have hq'haz : ∀ x ∈ qs', partHazard x = false :=
      fun x hx => hqwf.1 x (hqperm.mem_iff.mpr hx)
    rw [partLoop_eq qs hqwf.1, partLoop_eq qs' hq'haz]
    have hlen : (qs.filter qualifiesB).length ≤ 1 := by
      rw [← List.countP_eq_length_filter]
      exact hqwf.2
    rw [find?_eq_head?_filter', find?_eq_head?_filter',
      filter_perm_eq qualifiesB qs qs' hqperm hlen]

theorem extractInner_mkResp (ps : List Json)
    (h : ∀ p ∈ ps, hasNameField p = true) :
    extractInner (mkResp ps) =
      (match ps.find? (fun p => isNameB p "result") with
       | none => Except.ok (Json.str "")
       | some rp =>
         if truthy rp = false then Except.ok (Json.str "") else
         match pyGet rp "valueBoolean" (Json.bool false) with
         | .error e => Except.error e
         | .ok vb =>
           if truthy vb = false then Except.ok (Json.str "") else
           match ps.find? (fun p => isNameB p "match") with
           | none => Except.ok (Json.str "")
           | some mp => matchEval mp) := by
  have hred : extractInner (mkResp ps) =
      (match findByName ps "result" with
       | .error e => Except.error e
       | .ok none => Except.ok (Json.str "")
       | .ok (some rp) =>
         if truthy rp = false then Except.ok (Json.str "") else
         match pyGet rp "valueBoolean" (Json.bool false) with
         | .error e => Except.error e
         | .ok vb =>
           if truthy vb = false then Except.ok (Json.str "") else
           match findByName ps "match" with
           | .error e => Except.error e
           | .ok none => Except.ok (Json.str "")
           | .ok (some mp) => matchEval mp) := rfl
  rw [hred, findByName_eq ps "result" h, findByName_eq ps "match" h]
  cases ps.find? (fun p => isNameB p "result") with
  | none => rfl
  | some rp =>
    cases ps.find? (fun p => isNameB p "match") with
    | none => rfl
    | some mp => rfl

/-! # Claim theorems -/

/-- C8 (amended): the extractor is order-independent on well-formed
responses: if every parameter entry is an object carrying a "name" field,
at most one entry is named "result" and at most one "match", and the match
parameter's sub-parts raise no condition and contain at most one
qualifying ICD-10-AM concept part, then permuting the parameter entries
and the match parameter's sub-parts leaves the extracted result
unchanged.  (Unrestricted order-independence is refuted by
`extract_order_dependent_ce`.) -/
theorem extract_order_independent (ps ps' : List Json) (hwf : paramsWF ps)
    (hrel : ParamsRel ps ps') :
    extract_icd10_from_response (mkResp ps) =
      extract_icd10_from_response (mkResp ps') := by
  obtain ⟨hnames, hcr, hcm⟩ := hwf
  obtain ⟨ps₂, hf2, hperm⟩ := hrel
  have hnames₂ : ∀ p ∈ ps₂, hasNameField p = true := by
    intro p hp
    obtain ⟨a, ha, hr⟩ := forall2_mem_right hf2 p hp
    rw [← matchRel_hasName a p hr]
    exact hnames a ha
  have hnames' : ∀ p ∈ ps', hasNameField p = true :=
    fun p hp => hnames₂ p (hperm.mem_iff.mpr hp)
  unfold extract_icd10_from_response
  rw [extractInner_mkResp ps hnames, extractInner_mkResp ps' hnames']
  have hlenr : (ps₂.filter (fun p => isNameB p "result")).length ≤ 1 := by
    rw [← forall2_filter_result ps ps₂ hf2, ← List.countP_eq_length_filter]
    exact hcr
  have hresF : ps₂.filter (fun p => isNameB p "result") =
      ps'.filter (fun p => isNameB p "result") :=
    filter_perm_eq _ ps₂ ps' hperm hlenr
  have hres : ps'.find? (fun p => isNameB p "result") =
      ps.find? (fun p => isNameB p "result") := by
    rw [find?_eq_head?_filter', find?_eq_head?_filter',
      forall2_filter_result ps ps₂ hf2, hresF]
  rw [hres]
  have hmF0 := forall2_filter_match ps ps₂ hf2
  have hlenm : (ps₂.filter (fun p => isNameB p "match")).length ≤ 1 := by
    rw [← hmF0.length_eq, ← List.countP_eq_length_filter]
    exact hcm
  have hmEq : ps₂.filter (fun p => isNameB p "match") =
      ps'.filter (fun p => isNameB p "match") :=
    filter_perm_eq _ ps₂ ps' hperm hlenm
  have hmF : List.Forall₂ MatchRel (ps.filter (fun p => isNameB p "match"))
      (ps'.filter (fun p => isNameB p "match")) := hmEq ▸ hmF0
  have hinner : (match ps.find? (fun p => isNameB p "match") with
      | none => Except.ok (Json.str "")
      | some mp => matchEval mp) =
    (match ps'.find? (fun p => isNameB p "match") with
      | none => Except.ok (Json.str "")
      | some mp => matchEval mp) := by
    rw [find?_eq_head?_filter', find?_eq_head?_filter']
    rcases forall2_head?_rel hmF with ⟨h1, h2⟩ | ⟨a, b, h1, h2, hr⟩
    · rw [h1, h2]
    · rw [h1, h2]
      exact matchEval_congr a b hr
  rw [hinner]

/-- C8 counterexample: order-independence fails as universally stated.
The two parameter collections below are permutations of one another, yet
extraction returns "J45.9" for one ordering and "" for the other: the
first-match search for "result" picks whichever duplicate comes first. -/
theorem extract_order_dependent_ce :
    ([Json.obj [("name", Json.str "result"), ("valueBoolean", Json.bool true)],
      Json.obj [("name", Json.str "result"), ("valueBoolean", Json.bool false)],
      Json.obj [("name", Json.str "match"), ("part", Json.arr
        [Json.obj [("name", Json.str "concept"),
          ("valueCoding", Json.obj
            [("system", Json.str "http://hl7.org/fhir/sid/icd-10-am"),
             ("code", Json.str "J45.9")])]])]] : List Json).Perm
    [Json.obj [("name", Json.str "result"), ("valueBoolean", Json.bool false)],
     Json.obj [("name", Json.str "result"), ("valueBoolean", Json.bool true)],
     Json.obj [("name", Json.str "match"), ("part", Json.arr
       [Json.obj [("name", Json.str "concept"),
         ("valueCoding", Json.obj
           [("system", Json.str "http://hl7.org/fhir/sid/icd-10-am"),
            ("code", Json.str "J45.9")])]])]] ∧
    extract_icd10_from_response (mkResp
      [Json.obj [("name", Json.str "result"), ("valueBoolean", Json.bool true)],
       Json.obj [("name", Json.str "result"), ("valueBoolean", Json.bool false)],
       Json.obj [("name", Json.str "match"), ("part", Json.arr
         [Json.obj [("name", Json.str "concept"),
           ("valueCoding", Json.obj
             [("system", Json.str "http://hl7.org/fhir/sid/icd-10-am"),
              ("code", Json.str "J45.9")])]])]]) = Json.str "J45.9" ∧
    extract_icd10_from_response (mkResp
      [Json.obj [("name", Json.str "result"), ("valueBoolean", Json.bool false)],
       Json.obj [("name", Json.str "result"), ("valueBoolean", Json.bool true)],
       Json.obj [("name", Json.str "match"), ("part", Json.arr
         [Json.obj [("name", Json.str "concept"),
           ("valueCoding", Json.obj
             [("system", Json.str "http://hl7.org/fhir/sid/icd-10-am"),
              ("code", Json.str "J45.9")])]])]]) = Json.str "" :=
  ⟨List.Perm.swap _ _ _, rfl, rfl⟩

/-- C8 witness: the order-independence theorem applied to a concrete
well-formed response, swapping the match and result parameters. -/
theorem extract_order_independent_witness :
    extract_icd10_from_response (mkResp
      [Json.obj [("name", Json.str "match"), ("part", Json.arr
         [Json.obj [("name", Json.str "concept"),
           ("valueCoding", Json.obj
             [("system", Json.str "http://hl7.org/fhir/sid/icd-10-am"),
              ("code", Json.str "J45.9")])]])],
       Json.obj [("name", Json.str "result"), ("valueBoolean", Json.bool true)]]) =
    extract_icd10_from_response (mkResp
      [Json.obj [("name", Json.str "result"), ("valueBoolean", Json.bool true)],
       Json.obj [("name", Json.str "match"), ("part", Json.arr
         [Json.obj [("name", Json.str "concept"),
           ("valueCoding", Json.obj
             [("system", Json.str "http://hl7.org/fhir/sid/icd-10-am"),
              ("code", Json.str "J45.9")])]])]]) :=
  extract_order_independent _ _ ⟨by decide, by decide, by decide⟩
    ⟨[Json.obj [("name", Json.str "match"), ("part", Json.arr
         [Json.obj [("name", Json.str "concept"),
           ("valueCoding", Json.obj
             [("system", Json.str "http://hl7.org/fhir/sid/icd-10-am"),
              ("code", Json.str "J45.9")])]])],
       Json.obj [("name", Json.str "result"), ("valueBoolean", Json.bool true)]],
     List.Forall₂.cons (Or.inl rfl) (List.Forall₂.cons (Or.inl rfl)
       List.Forall₂.nil),
     List.Perm.swap _ _ _⟩

/-- C7: the three concrete extractor unit cases from the spec: a matched
ICD-10-AM concept yields its code, a false result flag yields the empty
result, and the empty response yields the empty result with no exception
escaping the inner body. -/
theorem extractor_unit_cases :
    extract_icd10_from_response (Json.obj [("parameter", Json.arr
      [Json.obj [("name", Json.str "result"), ("valueBoolean", Json.bool true)],
       Json.obj [("name", Json.str "match"), ("part", Json.arr
         [Json.obj [("name", Json.str "concept"),
           ("valueCoding", Json.obj
             [("system", Json.str "http://hl7.org/fhir/sid/icd-10-am"),
              ("code", Json.str "J45.9")])]])]])]) = Json.str "J45.9" ∧
    extract_icd10_from_response (Json.obj [("parameter", Json.arr
      [Json.obj [("name", Json.str "result"),
        ("valueBoolean", Json.bool false)]])]) = Json.str "" ∧
    extract_icd10_from_response (Json.obj []) = Json.str "" ∧
    extractInner (Json.obj []) = Except.ok (Json.str "") :=
  ⟨rfl, rfl, rfl, rfl⟩

/-- C1 (amended): every row the engine appends to the failure ledger has
an ERROR field fully determined by the code's environment: the literal
"No mapping found" whenever the per-code JSON-artifact write did not
raise — including when the remote translate call failed with a transport
or protocol error, which `make_fhir_request` catches and converts to a
`None` response — and "ERROR: msg" exactly when an exception (artifact
write) was raised inside the per-code block.  (The claim as stated is
refuted by `transport_error_literal_row_ce`.) -/
theorem failure_ledger_error_field (env : String → CodeEnv) (fs : LedgerFS)
    (lines : List String) (b : Bool) :
    ((((process_batch_codes env fs (some lines) b).fs.failed.getD []).drop
        (initLedger b fs.failed hdrFail).length).all
      (fun row => (row.drop 2).headD "" ==
        failMsgOf (env ((row.drop 1).headD "")))) = true := by
  obtain ⟨esO, esF, csN, h1, h2, h3, h4, h5, h6, h7⟩ :=
    process_batch_codes_shape env fs lines b
  rw [h2]
  simp only [Option.getD_some]
  rw [List.drop_left]
  apply List.all_eq_true.mpr
  intro row hrow
  obtain ⟨e, he, hf1, hf2⟩ := rowsFrom_mem_snomed _ _ row hrow
  rw [hf1, hf2, (h6 e he).2]
  simp

/-- C1 counterexample: a transport error on the translate call of code
"X" (the request is issued: it appears in `calls`) is recorded with the
ERROR field equal to the literal "No mapping found", not distinct from
it. -/
theorem transport_error_literal_row_ce :
    (process_batch_codes
      (fun _ => ⟨some "t", HttpResult.failure "boom", none, "T"⟩)
      fsAbsent (some ["X"]) false).calls = ["X"] ∧
    (process_batch_codes
      (fun _ => ⟨some "t", HttpResult.failure "boom", none, "T"⟩)
      fsAbsent (some ["X"]) false).fs.failed =
      some [hdrFail, ["1", "X", "No mapping found", "T"]] :=
  ⟨by decide, by decide⟩

/-- C2 counterexample: when the credential exchange fails, the run does
not fail fatally and per-code failure-ledger rows are written (here for
the single code "X"); only the translate HTTP calls themselves are
suppressed. -/
theorem token_failure_writes_rows_ce :
    (process_batch_codes
      (fun _ => ⟨none, HttpResult.failure "boom", none, "T"⟩)
      fsAbsent (some ["X"]) false).aborted = false ∧
    (process_batch_codes
      (fun _ => ⟨none, HttpResult.failure "boom", none, "T"⟩)
      fsAbsent (some ["X"]) false).calls = [] ∧
    (process_batch_codes
      (fun _ => ⟨none, HttpResult.failure "boom", none, "T"⟩)
      fsAbsent (some ["X"]) false).fs.failed =
      some [hdrFail, ["1", "X", "No mapping found", "T"]] :=
  ⟨rfl, by decide, by decide⟩

/-- C2 witness: the token-failure theorem applied to a concrete run. -/
theorem token_failure_run_witness :
    (process_batch_codes
      (fun _ => ⟨none, HttpResult.failure "boom", none, "T"⟩)
      fsAbsent (some ["X"]) false).aborted = false :=
  (token_failure_run (fun _ => ⟨none, HttpResult.failure "boom", none, "T"⟩)
    fsAbsent ["X"] false (fun _ => rfl) (fun _ => rfl)).1

/-- C3 (amended): with a deterministic per-code environment whose
credential exchange always succeeds, a resume run from absent ledgers
coincides exactly with a full-refresh run; a second resume run over the
same input leaves the success ledger unchanged but retries every failed
code, appending a second copy of each failure row with continued ids.
(The claim as stated — identical ledgers — is refuted by
`resume_twice_duplicates_failures_ce`.) -/
theorem resume_twice_vs_full_refresh (env : String → CodeEnv)
    (lines : List String)
    (hAuth : ∀ c, tokenTruthy (env c).tokenResult = true) :
    process_batch_codes env fsAbsent (some lines) false =
      process_batch_codes env fsAbsent (some lines) true ∧
    (process_batch_codes env fsAbsent (some lines) true).fs.output =
      some (hdrOut :: rowsFrom 1
        (succEntries env (processedCodes false [] lines))) ∧
    (process_batch_codes env fsAbsent (some lines) true).fs.failed =
      some (hdrFail :: rowsFrom 1
        (failEntries env (processedCodes false [] lines))) ∧
    (process_batch_codes env
        (process_batch_codes env fsAbsent (some lines) false).fs
        (some lines) false).fs.output =
      (process_batch_codes env fsAbsent (some lines) false).fs.output ∧
    (process_batch_codes env
        (process_batch_codes env fsAbsent (some lines) false).fs
        (some lines) false).fs.failed =
      some (hdrFail ::
        (rowsFrom 1 (failEntries env (processedCodes false [] lines)) ++
         rowsFrom ((failEntries env (processedCodes false [] lines)).length + 1)
           (failEntries env (processedCodes false [] lines)))) :=
  ⟨resume_absent_eq_full env lines,
   (full_run_ledgers env lines hAuth).1,
   (full_run_ledgers env lines hAuth).2,
   (second_resume_run env lines hAuth _ _ rfl rfl).1,
   (second_resume_run env lines hAuth _ _ rfl rfl).2⟩

/-- C3 counterexample: with one code whose translate call fails, two
resume runs leave two failure rows while one full-refresh run leaves
one — the ledger contents are not identical. -/
theorem resume_twice_duplicates_failures_ce :
    (process_batch_codes
      (fun _ => ⟨some "t", HttpResult.failure "boom", none, "T"⟩)
      (process_batch_codes
        (fun _ => ⟨some "t", HttpResult.failure "boom", none, "T"⟩)
        fsAbsent (some ["A"]) false).fs
      (some ["A"]) false).fs.failed =
      some [hdrFail, ["1", "A", "No mapping found", "T"],
        ["2", "A", "No mapping found", "T"]] ∧
    (process_batch_codes
      (fun _ => ⟨some "t", HttpResult.failure "boom", none, "T"⟩)
      fsAbsent (some ["A"]) true).fs.failed =
      some [hdrFail, ["1", "A", "No mapping found", "T"]] ∧
    (process_batch_codes
      (fun _ => ⟨some "t", HttpResult.failure "boom", none, "T"⟩)
      (process_batch_codes
        (fun _ => ⟨some "t", HttpResult.failure "boom", none, "T"⟩)
        fsAbsent (some ["A"]) false).fs
      (some ["A"]) false).fs.failed ≠
    (process_batch_codes
      (fun _ => ⟨some "t", HttpResult.failure "boom", none, "T"⟩)
      fsAbsent (some ["A"]) true).fs.failed :=
  ⟨by decide, by decide, by decide⟩

/-- C3 witness: the two-resume-runs theorem applied to a concrete
environment and input. -/
theorem resume_twice_vs_full_refresh_witness :
    process_batch_codes
      (fun _ => ⟨some "t", HttpResult.failure "boom", none, "T"⟩)
      fsAbsent (some ["A"]) false =
    process_batch_codes
      (fun _ => ⟨some "t", HttpResult.failure "boom", none, "T"⟩)
      fsAbsent (some ["A"]) true :=
  (resume_twice_vs_full_refresh
    (fun _ => ⟨some "t", HttpResult.failure "boom", none, "T"⟩)
    ["A"] (fun _ => rfl)).1

/-- C4 (amended): the next-id computation (`get_last_id` + 1) returns one
more than the id of the *last* row whose first column is numeric — which
equals one more than the maximum numeric identifier whenever the numeric
identifiers appear in non-decreasing order (as engine-written ledgers
always do), and 1 when no numeric row exists or the file is absent.
(The maximum-based claim for arbitrary file states is refuted by
`next_id_not_max_ce`.) -/
theorem next_id_last_digit_vs_max (file : LedgerFile)
    (h : (digitIds file).Sorted (· ≤ ·)) :
    get_last_id file + 1 = (digitIds file).foldl max 0 + 1 := by
  rw [get_last_id_sorted_max file h]

/-- C4 counterexample: a ledger whose numeric ids appear out of order
(2 then 1): the next-id computation returns 2 (one past the *last*
numeric id), not 3 (one past the maximum). -/
theorem next_id_not_max_ce :
    digitIds (some [hdrOut, ["2", "a", "b", "t"], ["1", "c", "d", "t"]]) ≠ [] ∧
    get_last_id (some [hdrOut, ["2", "a", "b", "t"], ["1", "c", "d", "t"]]) + 1 = 2 ∧
    (digitIds (some [hdrOut, ["2", "a", "b", "t"],
      ["1", "c", "d", "t"]])).foldl max 0 + 1 = 3 :=
  ⟨by decide, by decide, by decide⟩

/-- C4 witness: the sorted-ids theorem applied to a concrete in-order
ledger file. -/
theorem next_id_last_digit_vs_max_witness :
    get_last_id (some [hdrOut, ["1", "a", "b", "t"], ["2", "c", "d", "t"]]) + 1 =
      (digitIds (some [hdrOut, ["1", "a", "b", "t"],
        ["2", "c", "d", "t"]])).foldl max 0 + 1 :=
  next_id_last_digit_vs_max _ (by decide)

/-- C5: across any number of resume runs starting from absent ledger
files (the mode in which no row is ever deleted), each ledger consists of
its header followed by data rows whose identifier column is exactly the
decimal renderings of 1..N in order, where N is the number of rows ever
appended — no gaps and no repeats, across restarts. -/
theorem ledger_ids_contiguous (specs : List RunSpec) :
    idColumn (runSeq fsAbsent specs).output =
      (List.range' 1 (idColumn (runSeq fsAbsent specs).output).length 1).map
        natToStr ∧
    idColumn (runSeq fsAbsent specs).failed =
      (List.range' 1 (idColumn (runSeq fsAbsent specs).failed).length 1).map
        natToStr := by
  obtain ⟨ho, hf⟩ := runSeq_wf specs fsAbsent (Or.inl rfl) (Or.inl rfl)
  constructor
  · rcases ho with h | ⟨es, h⟩
    · rw [h]; rfl
    · exact idColumn_of_wf hdrOut _ h
  · rcases hf with h | ⟨es, h⟩
    · rw [h]; rfl
    · exact idColumn_of_wf hdrFail _ h

/-- C6: in a resume run, a code `c` that is a key of the existing-mappings
index built from the success ledger is never the subject of a translate
call and never the subject of a newly appended row in either ledger; and
processing an input line that trims to `c` only increments the total and
skipped counters, leaving the rest of the engine state (ledgers, ids,
token, calls) unchanged. -/
theorem skip_no_call_no_row (env : String → CodeEnv) (fs : LedgerFS)
    (lines : List String) (c : String) (st : EngineState) (l : String)
    (hc : keyMem (load_existing_mappings fs.output) c = true)
    (hst1 : st.full_refresh = false)
    (hst2 : keyMem st.existing c = true)
    (hl : pyStrip l = c) (hne : c ≠ "") :
    (∀ x ∈ (process_batch_codes env fs (some lines) false).calls, x ≠ c) ∧
    (∀ row ∈ (((process_batch_codes env fs (some lines) false).fs.output.getD
        []).drop (initLedger false fs.output hdrOut).length),
      (row.drop 1).headD "" ≠ c) ∧
    (∀ row ∈ (((process_batch_codes env fs (some lines) false).fs.failed.getD
        []).drop (initLedger false fs.failed hdrFail).length),
      (row.drop 1).headD "" ≠ c) ∧
    processCode env st l =
      { st with total := st.total + 1, skipped := st.skipped + 1 } := by
  obtain ⟨esO, esF, csN, h1, h2, h3, h4, h5, h6, h7⟩ :=
    process_batch_codes_shape env fs lines false
  refine ⟨?_, ?_, ?_, ?_⟩
  · intro x hx hxc
    rw [h3] at hx
    have hmem := h7 x hx
    subst hxc
    have hkf := processedCodes_keyMem (load_existing_mappings fs.output)
      lines x hmem
    rw [hkf] at hc
    exact Bool.false_ne_true hc
  · intro row hrow
    rw [h1] at hrow
    simp only [Option.getD_some] at hrow
    rw [List.drop_left] at hrow
    obtain ⟨e, he, hf1, hf2⟩ := rowsFrom_mem_snomed _ _ row hrow
    rw [hf1]
    intro hec
    have hmem := (h5 e he).1
    rw [hec] at hmem
    have hkf := processedCodes_keyMem (load_existing_mappings fs.output)
      lines c hmem
    rw [hkf] at hc
    exact Bool.false_ne_true hc
  · intro row hrow
    rw [h2] at hrow
    simp only [Option.getD_some] at hrow
    rw [List.drop_left] at hrow
    obtain ⟨e, he, hf1, hf2⟩ := rowsFrom_mem_snomed _ _ row hrow
    rw [hf1]
    intro hec
    have hmem := (h6 e he).1
    rw [hec] at hmem
    have hkf := processedCodes_keyMem (load_existing_mappings fs.output)
      lines c hmem
    rw [hkf] at hc
    exact Bool.false_ne_true hc
  · have hb : (pyStrip l == "") = false := by
      rw [hl]
      simp [hne]
    have hs : (!st.full_refresh && keyMem st.existing (pyStrip l)) = true := by
      rw [hl, hst1, hst2]
      rfl
    exact processCode_skip env st l hb hs

/-- C6 witness: the skip theorem applied to a concrete ledger containing
a mapping for "A" and a loop state whose index holds "A". -/
theorem skip_no_call_no_row_witness :
    processCode (fun _ => ⟨some "t", HttpResult.failure "boom", none, "T"⟩)
      { accessToken := none,
        existing := load_existing_mappings
          (some [hdrOut, ["1", "A", "J45.9", "T"]]),
        full_refresh := false,
        outRows := [hdrOut], failRows := [hdrFail],
        currentId := 2, failedId := 1,
        total := 0, skipped := 0, processed := 0, errors := 0, calls := [] }
      "A" =
    { accessToken := none,
      existing := load_existing_mappings
        (some [hdrOut, ["1", "A", "J45.9", "T"]]),
      full_refresh := false,
      outRows := [hdrOut], failRows := [hdrFail],
      currentId := 2, failedId := 1,
      total := 1, skipped := 1, processed := 0, errors := 0, calls := [] } :=
  (skip_no_call_no_row
    (fun _ => ⟨some "t", HttpResult.failure "boom", none, "T"⟩)
    ⟨some [hdrOut, ["1", "A", "J45.9", "T"]], none⟩ [] "A"
    { accessToken := none,
      existing := load_existing_mappings
        (some [hdrOut, ["1", "A", "J45.9", "T"]]),
      full_refresh := false,
      outRows := [hdrOut], failRows := [hdrFail],
      currentId := 2, failedId := 1,
      total := 0, skipped := 0, processed := 0, errors := 0, calls := [] }
    "A" (by decide) rfl (by decide) (by decide) (by decide)).2.2.2

/-- C9: every row ever appended to the success ledger carries a non-empty
ICD10 field (success rows are written only for truthy extracted values,
whose rendering is never the empty string); and a processed code whose
extraction yields a falsy value — e.g. the empty string produced when the
matched concept's valueCoding lacks a "code" field — is appended to the
failure ledger as "No mapping found", never to the success ledger. -/
theorem success_rows_nonempty_code (env : String → CodeEnv) (fs : LedgerFS)
    (lines : List String) (b : Bool) (st : EngineState) (l : String)
    (h1 : (pyStrip l == "") = false)
    (h2 : (!st.full_refresh && keyMem st.existing (pyStrip l)) = false)
    (h3 : (env (pyStrip l)).artifactError = none)
    (h4 : truthy (extract_icd10_from_response
      (((make_fhir_request st.accessToken (env (pyStrip l))).2.2).getD
        .null)) = false) :
    ((((process_batch_codes env fs (some lines) b).fs.output.getD []).drop
        (initLedger b fs.output hdrOut).length).all
      (fun row => !((row.drop 2).headD "" == ""))) = true ∧
    processCode env st l = { st with
      accessToken := (make_fhir_request st.accessToken (env (pyStrip l))).1,
      calls := if (make_fhir_request st.accessToken (env (pyStrip l))).2.1
               then st.calls ++ [pyStrip l] else st.calls,
      total := st.total + 1,
      errors := st.errors + 1,
      failRows := st.failRows ++
        [[natToStr st.failedId, pyStrip l, "No mapping found",
          (env (pyStrip l)).ts]],
      failedId := st.failedId + 1 } := by
  constructor
  · obtain ⟨esO, esF, csN, g1, g2, g3, g4, g5, g6, g7⟩ :=
      process_batch_codes_shape env fs lines b
    rw [g1]
    simp only [Option.getD_some]
    rw [List.drop_left]
    apply List.all_eq_true.mpr
    intro row hrow
    obtain ⟨e, he, hf1, hf2⟩ := rowsFrom_mem_snomed _ _ row hrow
    rw [hf2]
    have hne := (g5 e he).2
    simp [hne]
  · exact processCode_nomatch env st l h1 h2 h3 h4

/-- C9 witness: applied to a response whose matched concept's valueCoding
lacks a "code" field — the extraction is empty and the code lands in the
failure ledger as "No mapping found". -/
theorem success_rows_nonempty_code_witness :
    processCode
      (fun _ => ⟨some "t", HttpResult.success (Json.obj [("parameter",
        Json.arr [Json.obj [("name", Json.str "result"),
            ("valueBoolean", Json.bool true)],
          Json.obj [("name", Json.str "match"), ("part", Json.arr
            [Json.obj [("name", Json.str "concept"),
              ("valueCoding", Json.obj [("system",
                Json.str "http://hl7.org/fhir/sid/icd-10-am")])]])]])]),
        none, "T"⟩)
      { accessToken := some "t", existing := [], full_refresh := false,
        outRows := [hdrOut], failRows := [hdrFail],
        currentId := 1, failedId := 1,
        total := 0, skipped := 0, processed := 0, errors := 0, calls := [] }
      "A" =
    { accessToken := some "t", existing := [], full_refresh := false,
      outRows := [hdrOut],
      failRows := [hdrFail, ["1", "A", "No mapping found", "T"]],
      currentId := 1, failedId := 2,
      total := 1, skipped := 0, processed := 0, errors := 1,
      calls := ["A"] } := by
  have h := (success_rows_nonempty_code
    (fun _ => ⟨some "t", HttpResult.success (Json.obj [("parameter",
      Json.arr [Json.obj [("name", Json.str "result"),
          ("valueBoolean", Json.bool true)],
        Json.obj [("name", Json.str "match"), ("part", Json.arr
          [Json.obj [("name", Json.str "concept"),
            ("valueCoding", Json.obj [("system",
              Json.str "http://hl7.org/fhir/sid/icd-10-am")])]])]])]),
      none, "T"⟩)
    fsAbsent [] false
    { accessToken := some "t", existing := [], full_refresh := false,
      outRows := [hdrOut], failRows := [hdrFail],
      currentId := 1, failedId := 1,
      total := 0, skipped := 0, processed := 0, errors := 0, calls := [] }
    "A" (by decide) (by decide) rfl (by decide)).2
  rw [h]
  rfl

/-- C10: in full-refresh mode with an input file that cannot be opened,
the run aborts having already truncated both ledgers to their header rows
alone — regardless of the prior ledger contents, which are lost even
though no code was processed (zero counters, no calls). -/
theorem full_refresh_truncates_before_input_open (env : String → CodeEnv)
    (fs : LedgerFS) :
    process_batch_codes env fs none true =
      { fs := ⟨some [hdrOut], some [hdrFail]⟩, aborted := true,
        total := 0, skipped := 0, processed := 0, errors := 0,
        calls := [] } := rfl
